import Mathlib

/-!
# Host routing and statistics of the PostgreSQL cluster (`cluster_impl.cpp`)

A shallow embedding of `storages::postgres::detail::ClusterImpl`: the flag
arithmetic, `Fallback`, `SelectDsnIndex`, the constructor, `GetStatistics`,
`FindPool`, `Begin` and `Start`, and of `utils::statistics::AggregatedValues`
with `Add`, `Get` and the two overloads of `AggregatedValuesToJson`
(`aggregated_values.hpp`), followed by the properties proved about them.

Conventions of the embedding.
* A thrown exception, a failed `UASSERT` and behaviour the language leaves
  undefined are results of type `Failure`; a function that can throw returns
  `Except Failure _`.
* The atomic `rr_host_idx_` (a `uint32_t`) is passed explicitly: every routing
  function returns its result together with the value of the counter after the
  call.
* A pool, a transaction and a statistics descriptor are stood for by the index
  of the DSN they belong to.
-/

namespace Postgres

/-! ## Flags -/

/-- Modelled from the spec: the enum class `ClusterHostType` and the flag set
`ClusterHostTypeFlags` over it are declared in a header that is not among the
sources. Following the bit-flag role/strategy encoding of the design notes, every
enumerator but `kNone` is a bit of its own, and a value (of the enum or of the
flag set, both are the underlying integer) is recorded by the bits it has. -/
structure ClusterHostTypeFlags where
  master : Bool
  syncSlave : Bool
  slave : Bool
  roundRobin : Bool
  nearest : Bool
deriving DecidableEq, Repr, Fintype

/-- A value of the enum class: the same underlying integer as a flag set, so
`static_cast<ClusterHostType>(flags.GetValue())` is the identity. -/
abbrev ClusterHostType := ClusterHostTypeFlags

namespace ClusterHostType

def kNone : ClusterHostType := ⟨false, false, false, false, false⟩
def kMaster : ClusterHostType := ⟨true, false, false, false, false⟩
def kSyncSlave : ClusterHostType := ⟨false, true, false, false, false⟩
def kSlave : ClusterHostType := ⟨false, false, true, false, false⟩
def kRoundRobin : ClusterHostType := ⟨false, false, false, true, false⟩
def kNearest : ClusterHostType := ⟨false, false, false, false, true⟩

end ClusterHostType

open ClusterHostType

namespace ClusterHostTypeFlags

/-- Bitwise `a & b`. -/
def inter (a b : ClusterHostTypeFlags) : ClusterHostTypeFlags :=
  ⟨a.master && b.master, a.syncSlave && b.syncSlave, a.slave && b.slave,
    a.roundRobin && b.roundRobin, a.nearest && b.nearest⟩

/-- Bitwise `a | b`. -/
def union (a b : ClusterHostTypeFlags) : ClusterHostTypeFlags :=
  ⟨a.master || b.master, a.syncSlave || b.syncSlave, a.slave || b.slave,
    a.roundRobin || b.roundRobin, a.nearest || b.nearest⟩

/-- The member `a.Clear(mask)`: `a & ~mask`. -/
def Clear (a mask : ClusterHostTypeFlags) : ClusterHostTypeFlags :=
  ⟨a.master && !mask.master, a.syncSlave && !mask.syncSlave, a.slave && !mask.slave,
    a.roundRobin && !mask.roundRobin, a.nearest && !mask.nearest⟩

/-- Conversion to `bool`: some bit is set. -/
def any (a : ClusterHostTypeFlags) : Bool :=
  a.master || a.syncSlave || a.slave || a.roundRobin || a.nearest

instance : AndOp ClusterHostTypeFlags := ⟨inter⟩
instance : OrOp ClusterHostTypeFlags := ⟨union⟩

end ClusterHostTypeFlags

/-- Modelled from the spec: the mask `kClusterHostRolesMask` is declared in the
missing header; the role bits are Master, SyncSlave and Slave. -/
def kClusterHostRolesMask : ClusterHostTypeFlags := kMaster ||| kSyncSlave ||| kSlave

/-- Modelled from the spec: the mask `kClusterHostStrategyMask` is declared in the
missing header; the strategy bits are RoundRobin and Nearest. -/
def kClusterHostStrategyMask : ClusterHostTypeFlags := kRoundRobin ||| kNearest

/-! ## Failures -/

/-- How a call can end without a result. -/
inductive Failure where
  /-- `throw ClusterError(...)` -/
  | ClusterError
  /-- `throw ClusterUnavailable(...)` -/
  | ClusterUnavailable
  /-- `throw LogicError(...)` -/
  | LogicError
  /-- `std::out_of_range`, thrown by `std::vector::at` -/
  | OutOfRange
  /-- a `UASSERT` that is checked and whose condition is false -/
  | AssertionFailed
  /-- behaviour that C++ leaves undefined (flowing off the end of a non-void
  function, `operator[]` past the end of a vector) -/
  | Undefined
deriving DecidableEq, Repr

deriving instance DecidableEq for Except

/-- The macro `UASSERT` / `UASSERT_MSG` comes from `utils/assert.hpp`, which is
not among the sources: whether the build checks assertions is the parameter
`checked`. A checked assertion that does not hold ends the call. -/
def UASSERT (checked cond : Bool) : Except Failure Unit :=
  if checked && !cond then .error .AssertionFailed else .ok ()

/-! ## Topology and cluster state -/

/-- `QuorumCommitTopology::DsnIndices`, a `std::vector<size_t>`. -/
abbrev DsnIndices := List Nat

/-- A connection descriptor. -/
abbrev Dsn := String

/-- Modelled from the spec: `QuorumCommitTopology` is declared in a header that is
not among the sources; this is the part of it that `ClusterImpl` reads, the
endpoint list, the role snapshot and the liveness snapshot. -/
structure QuorumCommitTopology where
  /-- `GetDsnList()` -/
  dsn_list : List Dsn
  /-- `GetDsnIndicesByType()`: the map from role to indices; `none` is a key
  that `find` does not find. -/
  indices_by_type : ClusterHostType → Option DsnIndices
  /-- `GetAliveDsnIndices()` -/
  alive_indices : DsnIndices

/-- The members of `ClusterImpl` that routing and statistics use. A pool is
recorded by the DSN it was created for. -/
structure ClusterImpl where
  topology_ : QuorumCommitTopology
  host_pools_ : List Dsn
  /-- the value of the atomic `uint32_t` counter -/
  rr_host_idx_ : Nat

/-- The value of a routing call: the result or failure, and the round-robin
counter after the call. -/
abbrev Routed := Except Failure Nat × Nat

/-! ## `Fallback` and `SelectDsnIndex` -/

/-- `Fallback(ht)`: the switch over the enumerators. A value that is no
enumerator matches no case and control flows off the end of the function. -/
def Fallback (ht : ClusterHostType) : Except Failure ClusterHostType :=
  if ht = kMaster then .error .ClusterError
  else if ht = kSyncSlave ∨ ht = kSlave then .ok kMaster
  else if ht = kNone ∨ ht = kRoundRobin ∨ ht = kNearest then .error .ClusterError
  else .error .Undefined

/-- `SelectDsnIndex(indices, flags, rr_host_idx)`; `rr` is the counter before the
call. `fetch_add` returns the old value and stores the new one modulo 2^32. -/
def SelectDsnIndex (checked : Bool) (indices : DsnIndices) (flags : ClusterHostTypeFlags)
    (rr : Nat) : Routed :=
  match UASSERT checked (!indices.isEmpty) with
  | .error e => (.error e, rr)
  | .ok () =>
    if indices.isEmpty then (.error .ClusterError, rr)
    else
      let strategy_flags := flags &&& kClusterHostStrategyMask
      if !strategy_flags.any || strategy_flags = kRoundRobin then
        if indices.length ≠ 1 then
          let idx_pos := rr % indices.length
          let rr' := (rr + 1) % 2 ^ 32
          match indices[idx_pos]? with
          | some i => (.ok i, rr')
          | none => (.error .Undefined, rr')
        else
          match indices[0]? with
          | some i => (.ok i, rr)
          | none => (.error .Undefined, rr)
      else if strategy_flags ≠ kNearest then (.error .LogicError, rr)
      else
        match indices[0]? with
        | some i => (.ok i, rr)
        | none => (.error .Undefined, rr)

/-! ## `FindPool`, `Begin`, `Start` -/

/-- The condition `dsn_indices_it == end() || dsn_indices_it->second.empty()`. -/
def noBucket (b : Option DsnIndices) : Bool :=
  match b with
  | none => true
  | some l => l.isEmpty

/-- The vector `dsn_indices_it->second` of an iterator for which `noBucket` is
false. -/
def second (b : Option DsnIndices) : DsnIndices :=
  b.getD []

/-- The `while` loop of `FindPool`: as long as the role is not Master and has no
bucket, replace it by its fallback. Returns the role reached and the number of
fallbacks taken (one warning is logged for each). The loop ends because
`Fallback` returns nothing but Master. -/
@[semireducible]
def fallbackLoop (by_type : ClusterHostType → Option DsnIndices)
    (host_role : ClusterHostType) (steps : Nat) : Except Failure (ClusterHostType × Nat) :=
  if _hguard : host_role ≠ kMaster ∧ noBucket (by_type host_role) = true then
    match hf : Fallback host_role with
    | .ok fb => fallbackLoop by_type fb (steps + 1)
    | .error e => .error e
  else .ok (host_role, steps)
termination_by (if host_role = kMaster then 0 else 1)
decreasing_by
  have hfb : fb = kMaster := by
    unfold Fallback at hf
    split_ifs at hf
    injection hf with hf
    exact hf.symm
  simp [hfb, _hguard.1]

/-- The loop of `FindPool` once more, recording instead of the role reached the
arguments with which `Fallback` is called, in order. -/
@[semireducible]
def fallbackCalls (by_type : ClusterHostType → Option DsnIndices)
    (host_role : ClusterHostType) : List ClusterHostType :=
  if _hguard : host_role ≠ kMaster ∧ noBucket (by_type host_role) = true then
    match _hf : Fallback host_role with
    | .ok fb => host_role :: fallbackCalls by_type fb
    | .error _ => [host_role]
  else []
termination_by (if host_role = kMaster then 0 else 1)
decreasing_by
  have hfb : fb = kMaster := by
    unfold Fallback at _hf
    split_ifs at _hf
    injection _hf with hf
    exact hf.symm
  simp [hfb, _hguard.1]

/-- The last two lines of `FindPool`: `UASSERT(dsn_index < host_pools_.size())` and
`return host_pools_.at(dsn_index)`, where `at` throws when out of range. -/
def poolAt (checked : Bool) (c : ClusterImpl) (dsn_index : Nat) : Except Failure Nat :=
  match UASSERT checked (decide (dsn_index < c.host_pools_.length)) with
  | .error e => .error e
  | .ok () =>
    if dsn_index < c.host_pools_.length then .ok dsn_index else .error .OutOfRange

/-- The end of `FindPool` after the selection: an exception thrown while selecting
has left the function; otherwise the pool of the selected index is looked up. -/
def lookupPool (checked : Bool) (c : ClusterImpl) : Routed → Routed
  | (.error e, rr) => (.error e, rr)
  | (.ok dsn_index, rr) => (poolAt checked c dsn_index, rr)

/-- `ClusterImpl::FindPool(flags)`. The pool returned is `host_pools_.at(dsn_index)`:
the result is `dsn_index`. -/
def FindPool (checked : Bool) (c : ClusterImpl) (flags : ClusterHostTypeFlags) : Routed :=
  let role_flags := flags &&& kClusterHostRolesMask
  match UASSERT checked role_flags.any with
  | .error e => (.error e, c.rr_host_idx_)
  | .ok () =>
  match UASSERT checked (!(role_flags &&& kSyncSlave).any || role_flags = kSyncSlave) with
  | .error e => (.error e, c.rr_host_idx_)
  | .ok () =>
    let selected : Routed :=
      if (role_flags &&& kMaster).any && (role_flags &&& kSlave).any then
        let alive_dsn_indices := c.topology_.alive_indices
        if alive_dsn_indices.isEmpty then (.error .ClusterUnavailable, c.rr_host_idx_)
        else SelectDsnIndex checked alive_dsn_indices flags c.rr_host_idx_
      else
        let dsn_indices_by_type := c.topology_.indices_by_type
        match fallbackLoop dsn_indices_by_type role_flags 0 with
        | .error e => (.error e, c.rr_host_idx_)
        | .ok (host_role, _) =>
          let dsn_indices_it := dsn_indices_by_type host_role
          if noBucket dsn_indices_it then (.error .ClusterUnavailable, c.rr_host_idx_)
          else SelectDsnIndex checked (second dsn_indices_it) flags c.rr_host_idx_
    lookupPool checked c selected

/-- `ClusterImpl::Begin(flags, options, cmd_ctl)`; `read_only` is
`options.IsReadOnly()`. The transaction is begun on the pool that `FindPool`
returns: the result is the index of that pool. -/
def Begin (checked : Bool) (c : ClusterImpl) (flags : ClusterHostTypeFlags)
    (read_only : Bool) : Routed :=
  let role_flags := flags &&& kClusterHostRolesMask
  if read_only then
    if !role_flags.any then FindPool checked c (flags ||| kSlave)
    else FindPool checked c flags
  else
    if role_flags.any && !(role_flags &&& kMaster).any then
      (.error .ClusterUnavailable, c.rr_host_idx_)
    else FindPool checked c (kMaster ||| flags.Clear kClusterHostRolesMask)

/-- The statements of `Begin` before the call of `FindPool`: the flags that are passed
to `FindPool`, or the exception thrown instead. -/
def BeginFlags (flags : ClusterHostTypeFlags) (read_only : Bool) :
    Except Failure ClusterHostTypeFlags :=
  let role_flags := flags &&& kClusterHostRolesMask
  if read_only then
    if !role_flags.any then .ok (flags ||| kSlave)
    else .ok flags
  else
    if role_flags.any && !(role_flags &&& kMaster).any then .error .ClusterUnavailable
    else .ok (kMaster ||| flags.Clear kClusterHostRolesMask)

/-- `ClusterImpl::Start(flags, cmd_ctl)`: the result is the index of the pool on
which the statement is started. -/
def Start (checked : Bool) (c : ClusterImpl) (flags : ClusterHostTypeFlags) : Routed :=
  if !(flags &&& kClusterHostRolesMask).any then (.error .LogicError, c.rr_host_idx_)
  else FindPool checked c flags

/-- The statement of `Start` before the call of `FindPool`: the flags that are passed
to `FindPool`, or the exception thrown instead. -/
def StartFlags (flags : ClusterHostTypeFlags) : Except Failure ClusterHostTypeFlags :=
  if !(flags &&& kClusterHostRolesMask).any then .error .LogicError
  else .ok flags

/-- The statements of `FindPool` before the call of `SelectDsnIndex`: the list that
is passed to `SelectDsnIndex`, or the exception thrown instead. -/
def FindPoolSelects (checked : Bool) (c : ClusterImpl) (flags : ClusterHostTypeFlags) :
    Except Failure DsnIndices :=
  let role_flags := flags &&& kClusterHostRolesMask
  match UASSERT checked role_flags.any with
  | .error e => .error e
  | .ok () =>
  match UASSERT checked (!(role_flags &&& kSyncSlave).any || role_flags = kSyncSlave) with
  | .error e => .error e
  | .ok () =>
    if (role_flags &&& kMaster).any && (role_flags &&& kSlave).any then
      let alive_dsn_indices := c.topology_.alive_indices
      if alive_dsn_indices.isEmpty then .error .ClusterUnavailable
      else .ok alive_dsn_indices
    else
      let dsn_indices_by_type := c.topology_.indices_by_type
      match fallbackLoop dsn_indices_by_type role_flags 0 with
      | .error e => .error e
      | .ok (host_role, _) =>
        let dsn_indices_it := dsn_indices_by_type host_role
        if noBucket dsn_indices_it then .error .ClusterUnavailable
        else .ok (second dsn_indices_it)

/-- `SelectDsnIndex` called `n` times in a row on the same bucket with the same
flags, the counter left by one call being the counter of the next: the results
in order. -/
def SelectDsnIndexN (checked : Bool) (indices : DsnIndices) (flags : ClusterHostTypeFlags) :
    Nat → Nat → List (Except Failure Nat)
  | 0, _ => []
  | n + 1, rr =>
    (SelectDsnIndex checked indices flags rr).1 ::
      SelectDsnIndexN checked indices flags n (SelectDsnIndex checked indices flags rr).2

/-! ## `GetStatistics` -/

/-- `ClusterStatistics`: each `InstanceStatsDescriptor` is recorded by the DSN index
whose host/port and pool statistics it holds; a descriptor left
default-constructed is `none`. -/
structure ClusterStatistics where
  master : Option Nat
  sync_slave : Option Nat
  slaves : List Nat
  unknown : List Nat
deriving DecidableEq, Repr

/-- Filling a descriptor from `dsns[dsn_index]` and `host_pools_[dsn_index]`,
after `UASSERT(dsn_index < dsns.size())`. -/
def describe (checked : Bool) (c : ClusterImpl) (dsn_index : Nat) : Except Failure Nat :=
  match UASSERT checked (decide (dsn_index < c.topology_.dsn_list.length)) with
  | .error e => .error e
  | .ok () =>
    if dsn_index < c.topology_.dsn_list.length ∧ dsn_index < c.host_pools_.length then
      .ok dsn_index
    else .error .Undefined

/-- The loop over the Slave bucket: an index already seen is skipped, any other
is described, marked seen and appended to `slaves`. The seen flag is read
before anything is asserted about the index. -/
def slavesLoop (checked : Bool) (c : ClusterImpl) :
    DsnIndices → List Bool × List Nat → Except Failure (List Bool × List Nat)
  | [], st => .ok st
  | dsn_index :: rest, (is_host_pool_seen, slaves) =>
    match is_host_pool_seen[dsn_index]? with
    | none => .error .Undefined
    | some true => slavesLoop checked c rest (is_host_pool_seen, slaves)
    | some false =>
      match describe checked c dsn_index with
      | .error e => .error e
      | .ok d =>
        slavesLoop checked c rest (is_host_pool_seen.set dsn_index true, slaves ++ [d])

/-- The final loop, over the positions `i` of the seen vector in order: every
position not seen is described and appended to `unknown`. -/
def unknownLoop (checked : Bool) (c : ClusterImpl) (is_host_pool_seen : List Bool) :
    List Nat → List Nat → Except Failure (List Nat)
  | [], unknown => .ok unknown
  | i :: rest, unknown =>
    if is_host_pool_seen.getD i false then
      unknownLoop checked c is_host_pool_seen rest unknown
    else
      match describe checked c i with
      | .error e => .error e
      | .ok d => unknownLoop checked c is_host_pool_seen rest (unknown ++ [d])

/-- The block that the source writes once for Master and once for SyncSlave: when
the role has a non-empty bucket, its front is described and marked seen, whether
it was seen before or not. (The second copy also asserts
`dsn_index < host_pools_.size()`, which the assertion on the sizes at the head
of `GetStatistics` makes the same condition.) -/
def frontBlock (checked : Bool) (c : ClusterImpl) (role : ClusterHostType)
    (is_host_pool_seen : List Bool) : Except Failure (Option Nat × List Bool) :=
  match c.topology_.indices_by_type role with
  | some (dsn_index :: _) =>
    match describe checked c dsn_index with
    | .error e => .error e
    | .ok d =>
      if dsn_index < is_host_pool_seen.length then
        .ok (some d, is_host_pool_seen.set dsn_index true)
      else .error .Undefined
  | _ => .ok (none, is_host_pool_seen)

/-- `ClusterImpl::GetStatistics()`. -/
def GetStatistics (checked : Bool) (c : ClusterImpl) : Except Failure ClusterStatistics :=
  let dsns := c.topology_.dsn_list
  let is_host_pool_seen := List.replicate dsns.length false
  let dsn_indices_by_type := c.topology_.indices_by_type
  match UASSERT checked (decide (c.host_pools_.length = dsns.length)) with
  | .error e => .error e
  | .ok () =>
  match frontBlock checked c kMaster is_host_pool_seen with
  | .error e => .error e
  | .ok (master, is_host_pool_seen) =>
  match frontBlock checked c kSyncSlave is_host_pool_seen with
  | .error e => .error e
  | .ok (sync_slave, is_host_pool_seen) =>
  match slavesLoop checked c ((dsn_indices_by_type kSlave).getD []) (is_host_pool_seen, []) with
  | .error e => .error e
  | .ok (is_host_pool_seen, slaves) =>
  match unknownLoop checked c is_host_pool_seen (List.range is_host_pool_seen.length) [] with
  | .error e => .error e
  | .ok unknown => .ok ⟨master, sync_slave, slaves, unknown⟩

/-! ## The constructor -/

/-- Modelled from the spec: the constructor of `QuorumCommitTopology` is not among
the sources. The endpoint registry is the immutable construction-time list, so
`GetDsnList()` of the new topology is the list it was given; the role and
liveness snapshots it starts with are parameters. -/
def QuorumCommitTopology.create (dsns : List Dsn)
    (indices_by_type : ClusterHostType → Option DsnIndices) (alive_indices : DsnIndices) :
    QuorumCommitTopology :=
  ⟨dsns, indices_by_type, alive_indices⟩

/-- The loop `for (const auto& dsn : dsn_list) host_pools_.push_back(Create(dsn, ...))`. -/
def createPools : List Dsn → List Dsn → List Dsn
  | [], host_pools => host_pools
  | dsn :: rest, host_pools => createPools rest (host_pools ++ [dsn])

/-- `ClusterImpl::ClusterImpl(dsns, ...)`: the cluster constructed or the exception
thrown, and the DSNs for which a pool was created. -/
def ClusterImpl.create (dsns : List Dsn)
    (indices_by_type : ClusterHostType → Option DsnIndices) (alive_indices : DsnIndices) :
    Except Failure ClusterImpl × List Dsn :=
  let topology_ := QuorumCommitTopology.create dsns indices_by_type alive_indices
  let rr_host_idx_ := 0
  let dsn_list := topology_.dsn_list
  if dsn_list.isEmpty then (.error .ClusterError, [])
  else
    let host_pools_ := createPools dsn_list []
    (.ok ⟨topology_, host_pools_, rr_host_idx_⟩, host_pools_)

end Postgres

/-! ## `AggregatedValues` (`utils/statistics/aggregated_values.hpp`) -/

namespace Statistics

/-- `AggregatedValues<Length>`: the array `value` of `Length` counters of type
`std::atomic_llong`; `Length` is the length of the list. -/
structure AggregatedValues where
  value : List Int
deriving DecidableEq, Repr

namespace AggregatedValues

/-- The template parameter `Length`. -/
def Length (s : AggregatedValues) : Nat :=
  s.value.length

/-- A `long long` holds the integers from `-2^63` to `2^63 - 1`. -/
def IsLongLong (x : Int) : Prop :=
  -(2 ^ 63) ≤ x ∧ x < 2 ^ 63

instance (x : Int) : Decidable (IsLongLong x) := by
  unfold IsLongLong; infer_instance

/-- The value a 64-bit two's-complement counter holds for the integer `x`: the
number congruent to `x` modulo `2^64` in the range of `long long`. -/
def wrapLongLong (x : Int) : Int :=
  (x + 2 ^ 63) % 2 ^ 64 - 2 ^ 63

/-- The loop `while (key > 1) { bucket++; key >>= 1; }`: the final `bucket`. -/
@[semireducible]
def bucketLoop (key bucket : Nat) : Nat :=
  if _hkey : key > 1 then bucketLoop (key >>> 1) (bucket + 1) else bucket
termination_by key
decreasing_by
  rw [Nat.shiftRight_eq_div_pow]
  exact Nat.div_lt_self (by omega) (by decide)

/-- The bucket that `Add(key, _)` addresses: the result of the loop, replaced by
`Length - 1` (computed in `size_t`) when it is not below `Length`. -/
def targetBucket (s : AggregatedValues) (key : Nat) : Nat :=
  let bucket := bucketLoop key 0
  if bucket ≥ s.Length then (s.Length + 2 ^ 64 - 1) % 2 ^ 64 else bucket

/-- `AggregatedValues<Length>::Add(key, delta)`: `value[bucket] += delta` on the
atomic counter, which wraps; `none` when `bucket` is past the end of the array
(only for `Length = 0`). -/
def Add (s : AggregatedValues) (key delta : Nat) : Option AggregatedValues :=
  let bucket := targetBucket s key
  match s.value[bucket]? with
  | none => none
  | some v => some ⟨s.value.set bucket (wrapLongLong (v + delta))⟩

/-- `AggregatedValues<Length>::Get(bucket)`: `UASSERT(bucket < value.size())` and
`value[bucket].load()`; `none` when `bucket` is past the end, where the assertion
fails or the access is undefined. -/
def Get (s : AggregatedValues) (bucket : Nat) : Option Int :=
  s.value[bucket]?

end AggregatedValues

/-- The expression `1 << i` on the `int` 1: `2^i`, and `none` from `i = 31` on,
where the shift overflows `int`. -/
def shiftLeftInt (i : Nat) : Option Int :=
  if i < 31 then some (2 ^ i) else none

/-- The JSON object under construction, recorded as the assignments
`result[key] = value` in the order they are made. -/
abbrev JsonObject := List (String × Int)

/-- The loop of `AggregatedValuesToJson(stats, suffix)` over the remaining values of
`i`; `fmt::format` writes the `int`s `l` and `r` in decimal. -/
def toJsonLoop (stats : AggregatedValues) (suffix : String) (length : Nat) :
    List Nat → JsonObject → Option JsonObject
  | [], result => some result
  | i :: rest, result =>
    match (if i ≠ 0 then shiftLeftInt i else some 0), shiftLeftInt (i + 1), stats.value[i]? with
    | some l, some shifted, some v =>
      let r := shifted - 1
      let key :=
        if i ≠ length - 1 then toString l ++ "-" ++ toString r ++ suffix
        else toString l ++ "-x" ++ suffix
      toJsonLoop stats suffix length rest (result ++ [(key, v)])
    | _, _, _ => none

/-- `AggregatedValuesToJson(stats, suffix)`, the overload with a suffix. -/
def AggregatedValuesToJson (stats : AggregatedValues) (suffix : String) : Option JsonObject :=
  toJsonLoop stats suffix stats.Length (List.range stats.Length) []

/-- The loop of `AggregatedValuesToJson(stats)`, the overload without suffix. -/
def toJsonLoopPlain (stats : AggregatedValues) (Length : Nat) :
    List Nat → JsonObject → Option JsonObject
  | [], result => some result
  | i :: rest, result =>
    match (if i ≠ 0 then shiftLeftInt i else some 0), shiftLeftInt (i + 1), stats.Get i with
    | some l, some shifted, some v =>
      let r := shifted - 1
      let key :=
        if i < Length - 1 then toString l ++ "-" ++ toString r
        else toString l ++ "-x"
      toJsonLoopPlain stats Length rest (result ++ [(key, v)])
    | _, _, _ => none

/-- `AggregatedValuesToJson(stats)`, the overload without suffix. -/
def AggregatedValuesToJsonPlain (stats : AggregatedValues) : Option JsonObject :=
  toJsonLoopPlain stats stats.Length (List.range stats.Length) []

/-- The lower end of the key range of bucket `i`, in the words of the property:
0 for bucket 0 and `2^i` otherwise. -/
def lowerEnd (i : Nat) : Int :=
  if i = 0 then 0 else 2 ^ i

/-- The upper end of the key range of bucket `i`, in the words of the property:
`2^(i+1) - 1`. -/
def upperEnd (i : Nat) : Int :=
  2 ^ (i + 1) - 1

/-- The label of bucket `i` among `Length` buckets, in the words of the property:
"l-r" for a bucket that is not the last, "l-x" for the last. -/
def keyLabel (Length i : Nat) : String :=
  if i < Length - 1 then toString (lowerEnd i) ++ "-" ++ toString (upperEnd i)
  else toString (lowerEnd i) ++ "-x"

end Statistics

namespace Postgres

open ClusterHostType

/-! ## Vocabulary of the properties -/

/-- The role bits of a request, `flags & kClusterHostRolesMask`. -/
def roleFlags (flags : ClusterHostTypeFlags) : ClusterHostTypeFlags :=
  flags &&& kClusterHostRolesMask

/-- The strategy bits of a request, `flags & kClusterHostStrategyMask`. -/
def strategyFlags (flags : ClusterHostTypeFlags) : ClusterHostTypeFlags :=
  flags &&& kClusterHostStrategyMask

/-- The request carries exactly one role bit. -/
def SingleRole (flags : ClusterHostTypeFlags) : Prop :=
  roleFlags flags = kMaster ∨ roleFlags flags = kSyncSlave ∨ roleFlags flags = kSlave

instance (flags : ClusterHostTypeFlags) : Decidable (SingleRole flags) := by
  unfold SingleRole; infer_instance

/-- The bucket of a role in the current role snapshot; a role without an entry
has the empty bucket. -/
def bucket (c : ClusterImpl) (role : ClusterHostType) : DsnIndices :=
  second (c.topology_.indices_by_type role)

/-- The bucket on which the loop of `FindPool` stops for a single requested role:
the role's own bucket, or the Master bucket when the role is not Master and its
own bucket is empty. -/
def resolvedBucket (c : ClusterImpl) (role : ClusterHostType) : DsnIndices :=
  if role ≠ kMaster ∧ bucket c role = [] then bucket c kMaster else bucket c role

/-- What `FindPool` does once the bucket is chosen: select in it, then look the
pool up. -/
def selectIn (checked : Bool) (c : ClusterImpl) (flags : ClusterHostTypeFlags)
    (b : DsnIndices) : Routed :=
  if b = [] then (.error .ClusterUnavailable, c.rr_host_idx_)
  else lookupPool checked c (SelectDsnIndex checked b flags c.rr_host_idx_)

/-- There is one pool per endpoint, as the constructor leaves it. -/
def PoolPerEndpoint (c : ClusterImpl) : Prop :=
  c.host_pools_.length = c.topology_.dsn_list.length

instance (c : ClusterImpl) : Decidable (PoolPerEndpoint c) := by
  unfold PoolPerEndpoint; infer_instance

/-- Every index in the Master, SyncSlave and Slave buckets is below the number of
endpoints. -/
def BucketsInRange (c : ClusterImpl) : Prop :=
  (∀ i ∈ bucket c kMaster, i < c.topology_.dsn_list.length) ∧
  (∀ i ∈ bucket c kSyncSlave, i < c.topology_.dsn_list.length) ∧
  (∀ i ∈ bucket c kSlave, i < c.topology_.dsn_list.length)

instance (c : ClusterImpl) : Decidable (BucketsInRange c) := by
  unfold BucketsInRange; infer_instance

/-- Every index in the liveness snapshot is below the number of endpoints. -/
def AliveInRange (c : ClusterImpl) : Prop :=
  ∀ i ∈ c.topology_.alive_indices, i < c.topology_.dsn_list.length

instance (c : ClusterImpl) : Decidable (AliveInRange c) := by
  unfold AliveInRange; infer_instance

/-- A valid request: the role bits are not empty, SyncSlave is not combined with
another role, and exactly one strategy bit is set. -/
def ValidRequest (flags : ClusterHostTypeFlags) : Prop :=
  (roleFlags flags).any = true ∧
  ((roleFlags flags &&& kSyncSlave).any = false ∨ roleFlags flags = kSyncSlave) ∧
  (strategyFlags flags = kRoundRobin ∨ strategyFlags flags = kNearest)

instance (flags : ClusterHostTypeFlags) : Decidable (ValidRequest flags) := by
  unfold ValidRequest; infer_instance

/-- The list in which `FindPool` selects for a valid request: the liveness list
when both the Master and the Slave bit are set, the bucket the single role
resolves to otherwise. -/
def routedBucket (c : ClusterImpl) (flags : ClusterHostTypeFlags) : DsnIndices :=
  if (roleFlags flags &&& kMaster).any && (roleFlags flags &&& kSlave).any then
    c.topology_.alive_indices
  else resolvedBucket c (roleFlags flags)

/-- Failure atomicity of one call of an entry point that started at the counter of
`c` and ended as `r`, where `passed` is what the entry point does before
`FindPool`: the flags with which it calls `FindPool`, or the exception it
throws instead. If `r` is a failure with ClusterUnavailable, LogicError or
ClusterError the counter is the same after the call as before. If the counter
is not the same, then `FindPool` was called, it called `SelectDsnIndex` with a
list of more than one index and flags whose strategy is RoundRobin (or absent),
and that selection succeeded, leaving the counter one higher modulo 2^32.
Conversely every call of `SelectDsnIndex` by `FindPool` with such a list and
such flags leaves the counter one higher modulo 2^32. -/
def CounterKept (checked : Bool) (c : ClusterImpl)
    (passed : Except Failure ClusterHostTypeFlags) (r : Routed) : Prop :=
  (∀ e, r.1 = .error e →
    (e = .ClusterUnavailable ∨ e = .LogicError ∨ e = .ClusterError) →
    r.2 = c.rr_host_idx_) ∧
  (r.2 ≠ c.rr_host_idx_ →
    ∃ (f : ClusterHostTypeFlags) (b : DsnIndices) (i : Nat),
      passed = .ok f ∧ FindPoolSelects checked c f = .ok b ∧ 1 < b.length ∧
      ((strategyFlags f).any = false ∨ strategyFlags f = kRoundRobin) ∧
      SelectDsnIndex checked b f c.rr_host_idx_ = (.ok i, r.2) ∧
      r.2 = (c.rr_host_idx_ + 1) % 2 ^ 32) ∧
  (∀ (f : ClusterHostTypeFlags) (b : DsnIndices),
    passed = .ok f → FindPoolSelects checked c f = .ok b → 1 < b.length →
    ((strategyFlags f).any = false ∨ strategyFlags f = kRoundRobin) →
    r.2 = (c.rr_host_idx_ + 1) % 2 ^ 32)

/-- Endpoints A, B, C with the Slave bucket [5, 6], indices that have no pool. -/
def strayIndices : ClusterImpl :=
  ⟨⟨["A", "B", "C"], fun role => if role = kSlave then some [5, 6] else none, [0]⟩,
    ["A", "B", "C"], 0⟩

/-- The index `i` is reported by the statistics `s` in some category. -/
def Reported (s : ClusterStatistics) (i : Nat) : Prop :=
  s.master = some i ∨ s.sync_slave = some i ∨ i ∈ s.slaves ∨ i ∈ s.unknown

instance (s : ClusterStatistics) (i : Nat) : Decidable (Reported s i) := by
  unfold Reported; infer_instance

/-! ## Example clusters -/

/-- Endpoints A, B, C (indices 0, 1, 2) with role snapshot Master: [A],
Slave: [B, C]. -/
def abcRoles (role : ClusterHostType) : Option DsnIndices :=
  if role = kMaster then some [0] else if role = kSlave then some [1, 2] else none

/-- The cluster over A, B, C with that role snapshot, liveness {A, C} (B is dead)
and round-robin counter `rr`. -/
def abcBDead (rr : Nat) : ClusterImpl :=
  ⟨⟨["A", "B", "C"], abcRoles, [0, 2]⟩, ["A", "B", "C"], rr⟩

/-- Two endpoints A, B; a stale role snapshot lists A both as Master and as
SyncSlave. -/
def staleMasterSync : ClusterImpl :=
  ⟨⟨["A", "B"],
    fun role => if role = kMaster then some [0] else if role = kSyncSlave then some [0] else none,
    [0, 1]⟩, ["A", "B"], 0⟩

/-- Two endpoints A, B; the snapshot lists Master: [A, B] and SyncSlave: [B]. -/
def staleMasterTail : ClusterImpl :=
  ⟨⟨["A", "B"],
    fun role =>
      if role = kMaster then some [0, 1] else if role = kSyncSlave then some [1] else none,
    [0, 1]⟩, ["A", "B"], 0⟩

/-- Two endpoints A, B, both in the Master bucket, both alive; counter `rr`. -/
def twoMasters (rr : Nat) : ClusterImpl :=
  ⟨⟨["A", "B"], fun role => if role = kMaster then some [0, 1] else none, [0, 1]⟩,
    ["A", "B"], rr⟩

/-- One endpoint, an empty role snapshot and an empty liveness snapshot. -/
def emptyCluster : ClusterImpl :=
  ⟨⟨["A"], fun _ => none, []⟩, ["A"], 0⟩

end Postgres

/-! # Properties -/

namespace Postgres

open ClusterHostType

/-! ## Lemmas on the building blocks -/

theorem Fallback_ok {r fb : ClusterHostType} (h : Fallback r = .ok fb) : fb = kMaster := by
  unfold Fallback at h
  split_ifs at h
  injection h with h
  exact h.symm

/-- The loop of `FindPool` in closed form: it runs its body at most once. -/
theorem fallbackLoop_eq (m : ClusterHostType → Option DsnIndices) (r : ClusterHostType)
    (n : Nat) :
    fallbackLoop m r n =
      if r ≠ kMaster ∧ noBucket (m r) = true then
        match Fallback r with
        | .ok _ => .ok (kMaster, n + 1)
        | .error e => .error e
      else .ok (r, n) := by
  rw [fallbackLoop]
  split_ifs with h
  · split
    · rename_i fb hf
      have hfb := Fallback_ok hf
      subst hfb
      rw [fallbackLoop]
      simp [hf]
    · rename_i e hf
      simp [hf]
  · rfl

theorem noBucket_iff (c : ClusterImpl) (r : ClusterHostType) :
    noBucket (c.topology_.indices_by_type r) = true ↔ bucket c r = [] := by
  unfold noBucket bucket second
  cases c.topology_.indices_by_type r <;> simp

theorem poolAt_eq (checked : Bool) (c : ClusterImpl) (i : Nat) :
    poolAt checked c i =
      if i < c.host_pools_.length then .ok i
      else .error (if checked then .AssertionFailed else .OutOfRange) := by
  unfold poolAt UASSERT
  by_cases h : i < c.host_pools_.length <;> cases checked <;> simp [h]

/-- A single-role request is served from the bucket its role resolves to. -/
theorem FindPool_singleRole (checked : Bool) (c : ClusterImpl) (flags : ClusterHostTypeFlags)
    (h : SingleRole flags) :
    FindPool checked c flags = selectIn checked c flags (resolvedBucket c (roleFlags flags)) := by
  unfold FindPool selectIn resolvedBucket
  simp only [fallbackLoop_eq, noBucket_iff]
  have hs : ∀ r, second (c.topology_.indices_by_type r) = bucket c r := fun _ => rfl
  simp only [hs]
  rcases h with h | h | h <;> unfold roleFlags at h ⊢ <;> rw [h] <;>
    simp +decide [UASSERT, Fallback] <;>
    split_ifs <;> simp_all [lookupPool]

/-- `SelectDsnIndex` on a non-empty list, in closed form. -/
theorem SelectDsnIndex_eq (checked : Bool) (b : DsnIndices) (flags : ClusterHostTypeFlags)
    (rr : Nat) (hb : b ≠ []) :
    SelectDsnIndex checked b flags rr =
      if (strategyFlags flags).any = false ∨ strategyFlags flags = kRoundRobin then
        if b.length ≠ 1 then (.ok (b.getD (rr % b.length) 0), (rr + 1) % 2 ^ 32)
        else (.ok (b.getD 0 0), rr)
      else if strategyFlags flags ≠ kNearest then (.error .LogicError, rr)
      else (.ok (b.getD 0 0), rr) := by
  have hpos : 0 < b.length := List.length_pos.mpr hb
  have hget : ∀ k, k < b.length → b[k]? = some (b.getD k 0) := by
    intro k hk
    rw [List.getD_eq_getElem?_getD, List.getElem?_eq_getElem hk]
    rfl
  have hemp : b.isEmpty = false := by
    cases b with
    | nil => exact absurd rfl hb
    | cons x xs => rfl
  unfold SelectDsnIndex UASSERT strategyFlags
  simp only [hemp, hget 0 hpos, hget (rr % b.length) (Nat.mod_lt _ hpos)]
  cases checked <;> simp

/-- Whatever `SelectDsnIndex` selects is an element of the list it was given. -/
theorem SelectDsnIndex_mem {checked : Bool} {b : DsnIndices} {flags : ClusterHostTypeFlags}
    {rr i rr' : Nat} (h : SelectDsnIndex checked b flags rr = (.ok i, rr')) : i ∈ b := by
  by_cases hb : b = []
  · subst hb
    cases checked <;> simp [SelectDsnIndex, UASSERT] at h
  · have hpos : 0 < b.length := List.length_pos.mpr hb
    have hmem : ∀ k, k < b.length → (b[k]?).getD 0 ∈ b := by
      intro k hk
      rw [List.getElem?_eq_getElem hk]
      exact List.getElem_mem hk
    rw [SelectDsnIndex_eq checked b flags rr hb] at h
    split_ifs at h <;> simp at h
    · rw [← h.1]; exact hmem _ (Nat.mod_lt _ hpos)
    · rw [← h.1]; exact hmem _ hpos
    · rw [← h.1]; exact hmem _ hpos

/-- `SelectDsnIndex` fails with `ClusterUnavailable` on no input. -/
theorem SelectDsnIndex_ne_unavailable (checked : Bool) (b : DsnIndices)
    (flags : ClusterHostTypeFlags) (rr rr' : Nat) :
    SelectDsnIndex checked b flags rr ≠ (.error .ClusterUnavailable, rr') := by
  by_cases hb : b = []
  · subst hb
    cases checked <;> simp [SelectDsnIndex, UASSERT]
  · rw [SelectDsnIndex_eq checked b flags rr hb]
    split_ifs <;> simp

theorem resolvedBucket_eq_nil_iff (c : ClusterImpl) (r : ClusterHostType) :
    resolvedBucket c r = [] ↔ bucket c kMaster = [] ∧ (r = kMaster ∨ bucket c r = []) := by
  unfold resolvedBucket
  by_cases h1 : r = kMaster
  · subst h1; simp
  · by_cases h2 : bucket c r = [] <;> simp [h1, h2]

/-- When `selectIn` succeeds the index is an element of the bucket and the index
of a pool. -/
theorem selectIn_ok {checked : Bool} {c : ClusterImpl} {flags : ClusterHostTypeFlags}
    {b : DsnIndices} {i rr' : Nat} (h : selectIn checked c flags b = (.ok i, rr')) :
    i ∈ b ∧ i < c.host_pools_.length := by
  unfold selectIn at h
  split_ifs at h with hb
  · simp at h
  · unfold lookupPool at h
    split at h
    · simp at h
    · rename_i j rr hsel
      rw [poolAt_eq] at h
      by_cases hj : j < c.host_pools_.length
      · rw [if_pos hj] at h
        simp at h
        rw [← h.1]
        exact ⟨SelectDsnIndex_mem hsel, hj⟩
      · rw [if_neg hj] at h
        simp at h

/-- The first component of `selectIn` is `ClusterUnavailable` exactly on the empty
bucket. -/
theorem selectIn_unavailable_iff (checked : Bool) (c : ClusterImpl)
    (flags : ClusterHostTypeFlags) (b : DsnIndices) :
    (selectIn checked c flags b).1 = .error .ClusterUnavailable ↔ b = [] := by
  unfold selectIn
  constructor
  · intro h
    by_contra hb
    rw [if_neg hb] at h
    have hne := SelectDsnIndex_ne_unavailable checked b flags c.rr_host_idx_
    unfold lookupPool at h
    split at h
    · rename_i e rr hsel
      simp at h
      subst h
      exact hne rr hsel
    · rename_i j rr hsel
      rw [poolAt_eq] at h
      split_ifs at h <;> simp at h
  · intro hb
    simp [hb]

/-! ## C1: the selected index and the liveness set -/

/-- C1, the claim refuted: with role snapshot Master: [A], Slave: [B, C] and
liveness {A, C}, a round-robin Slave request at counter 0 selects B (index 1),
which is not in the liveness set. -/
theorem FindPool_slave_selects_dead :
    FindPool true (abcBDead 0) (kSlave ||| kRoundRobin) = (.ok 1, 1) ∧
      1 ∉ (abcBDead 0).topology_.alive_indices := by
  decide

/-- C1, as amended: for a request with exactly one role bit `FindPool` serves the
request from the bucket its role resolves to, the whole bucket as the role
snapshot gives it: it fails with ClusterUnavailable when that bucket is empty and
otherwise is `SelectDsnIndex` on that bucket followed by the pool lookup. The
liveness set is not read: replacing it by any other leaves the outcome
unchanged, as it does for every request that does not carry both the Master and
the Slave bit. Hence when `FindPool` succeeds the selected index is an element of the
requested role's bucket, or, the role not being Master and its bucket being
empty, of the Master bucket. In the scenario Master: [A], Slave: [B, C],
liveness {A, C}, a Slave request with round robin (or no strategy bit) returns B
at an even counter and C at an odd one. -/
theorem FindPool_selects_in_role_bucket (checked : Bool) (c : ClusterImpl)
    (flags : ClusterHostTypeFlags) (h : SingleRole flags) :
    (FindPool checked c flags =
      if resolvedBucket c (roleFlags flags) = [] then
        (.error .ClusterUnavailable, c.rr_host_idx_)
      else
        lookupPool checked c
          (SelectDsnIndex checked (resolvedBucket c (roleFlags flags)) flags c.rr_host_idx_)) ∧
    (∀ alive, FindPool checked
        ⟨⟨c.topology_.dsn_list, c.topology_.indices_by_type, alive⟩, c.host_pools_,
          c.rr_host_idx_⟩ flags = FindPool checked c flags) ∧
    (∀ (f : ClusterHostTypeFlags) alive,
      ((roleFlags f &&& kMaster).any && (roleFlags f &&& kSlave).any) = false →
      FindPool checked
        ⟨⟨c.topology_.dsn_list, c.topology_.indices_by_type, alive⟩, c.host_pools_,
          c.rr_host_idx_⟩ f = FindPool checked c f) ∧
    (∀ i rr', FindPool checked c flags = (.ok i, rr') →
      (i ∈ bucket c (roleFlags flags) ∨
        (roleFlags flags ≠ kMaster ∧ bucket c (roleFlags flags) = [] ∧
          i ∈ bucket c kMaster))) ∧
    (∀ rr, FindPool checked (abcBDead rr) (kSlave ||| kRoundRobin) =
        (.ok (if rr % 2 = 0 then 1 else 2), (rr + 1) % 2 ^ 32) ∧
      FindPool checked (abcBDead rr) kSlave =
        (.ok (if rr % 2 = 0 then 1 else 2), (rr + 1) % 2 ^ 32)) := by
  refine ⟨?_, ?_, ?_, ?_, ?_⟩
  · rw [FindPool_singleRole checked c flags h]
    rfl
  · intro alive
    rw [FindPool_singleRole checked c flags h, FindPool_singleRole checked _ flags h]
    rfl
  · intro f alive hf
    unfold roleFlags at hf
    unfold FindPool
    simp only [hf]
    rfl
  · intro i rr' hok
    rw [FindPool_singleRole checked c flags h] at hok
    have hmem := (selectIn_ok hok).1
    unfold resolvedBucket at hmem
    split_ifs at hmem with hr
    · exact Or.inr ⟨hr.1, hr.2, hmem⟩
    · exact Or.inl hmem
  · intro rr
    have hb : resolvedBucket (abcBDead rr) kSlave = [1, 2] := by
      simp +decide [resolvedBucket, bucket, second, abcBDead, abcRoles]
    have h2 : rr % 2 = 0 ∨ rr % 2 = 1 := by omega
    constructor
    · rw [FindPool_singleRole checked _ _ (by decide),
        show roleFlags (kSlave ||| kRoundRobin) = kSlave from by decide, hb]
      unfold selectIn
      rw [if_neg (by decide), SelectDsnIndex_eq _ _ _ _ (by decide),
        if_pos (Or.inr (by decide))]
      rcases h2 with h2 | h2 <;> simp [h2, lookupPool, poolAt_eq, abcBDead]
    · rw [FindPool_singleRole checked _ _ (by decide),
        show roleFlags kSlave = kSlave from by decide, hb]
      unfold selectIn
      rw [if_neg (by decide), SelectDsnIndex_eq _ _ _ _ (by decide),
        if_pos (Or.inl (by decide))]
      rcases h2 with h2 | h2 <;> simp [h2, lookupPool, poolAt_eq, abcBDead]

/-- C1, an instance of the amended claim: the round-robin Slave request on the
cluster A, B, C. -/
theorem FindPool_selects_in_role_bucket_witness :
    (FindPool true (abcBDead 0) (kSlave ||| kRoundRobin) =
      if resolvedBucket (abcBDead 0) (roleFlags (kSlave ||| kRoundRobin)) = [] then
        (.error .ClusterUnavailable, (abcBDead 0).rr_host_idx_)
      else
        lookupPool true (abcBDead 0)
          (SelectDsnIndex true (resolvedBucket (abcBDead 0) (roleFlags (kSlave ||| kRoundRobin)))
            (kSlave ||| kRoundRobin) (abcBDead 0).rr_host_idx_)) ∧
    (∀ alive, FindPool true
        ⟨⟨(abcBDead 0).topology_.dsn_list, (abcBDead 0).topology_.indices_by_type, alive⟩,
          (abcBDead 0).host_pools_, (abcBDead 0).rr_host_idx_⟩ (kSlave ||| kRoundRobin) =
      FindPool true (abcBDead 0) (kSlave ||| kRoundRobin)) ∧
    (∀ (f : ClusterHostTypeFlags) alive,
      ((roleFlags f &&& kMaster).any && (roleFlags f &&& kSlave).any) = false →
      FindPool true
        ⟨⟨(abcBDead 0).topology_.dsn_list, (abcBDead 0).topology_.indices_by_type, alive⟩,
          (abcBDead 0).host_pools_, (abcBDead 0).rr_host_idx_⟩ f =
      FindPool true (abcBDead 0) f) ∧
    (∀ i rr', FindPool true (abcBDead 0) (kSlave ||| kRoundRobin) = (.ok i, rr') →
      (i ∈ bucket (abcBDead 0) (roleFlags (kSlave ||| kRoundRobin)) ∨
        (roleFlags (kSlave ||| kRoundRobin) ≠ kMaster ∧
          bucket (abcBDead 0) (roleFlags (kSlave ||| kRoundRobin)) = [] ∧
          i ∈ bucket (abcBDead 0) kMaster))) ∧
    (∀ rr, FindPool true (abcBDead rr) (kSlave ||| kRoundRobin) =
        (.ok (if rr % 2 = 0 then 1 else 2), (rr + 1) % 2 ^ 32) ∧
      FindPool true (abcBDead rr) kSlave =
        (.ok (if rr % 2 = 0 then 1 else 2), (rr + 1) % 2 ^ 32)) :=
  FindPool_selects_in_role_bucket true (abcBDead 0) (kSlave ||| kRoundRobin) (by decide)

/-! ## C2: round-robin fairness -/

/-- With `c = (a + (k - 1 - p)) % k`, the numbers `N` at which `(a + N) % k = p` are
those at which `k` divides `N + c + 1`. -/
theorem dvd_shift_iff (k a N p : Nat) (hp : p < k) :
    k ∣ N + (a + (k - 1 - p)) % k + 1 ↔ (a + N) % k = p := by
  have hk : 0 < k := by omega
  rw [Nat.dvd_iff_mod_eq_zero]
  have e1 : (N + (a + (k - 1 - p)) % k + 1) % k = ((a + N) % k + (k - p)) % k := by
    rw [Nat.mod_add_mod]
    have : N + (a + (k - 1 - p)) % k + 1 = (N + 1) + (a + (k - 1 - p)) % k := by omega
    rw [this, Nat.add_mod_mod]
    congr 1
    omega
  rw [e1]
  have hx : (a + N) % k < k := Nat.mod_lt _ hk
  generalize (a + N) % k = x at hx
  rcases Nat.lt_trichotomy x p with h | h | h
  · rw [Nat.mod_eq_of_lt (by omega)]
    omega
  · subst h
    have : x + (k - x) = k := by omega
    rw [this, Nat.mod_self]
    simp
  · have : x + (k - p) = (x - p) + k := by omega
    rw [this, Nat.add_mod_right, Nat.mod_eq_of_lt (by omega)]
    omega

/-- How many of `a, a + 1, ..., a + N - 1` have residue `p` modulo `k`. -/
theorem countP_residue (k a p : Nat) (hp : p < k) (N : Nat) :
    (List.range N).countP (fun j => decide ((a + j) % k = p)) =
      (N + (a + (k - 1 - p)) % k) / k := by
  have hk : 0 < k := by omega
  induction N with
  | zero =>
    simp

  | succ N ih =>
    rw [List.range_succ, List.countP_append, ih]
    have : N + 1 + (a + (k - 1 - p)) % k = (N + (a + (k - 1 - p)) % k) + 1 := by omega
    rw [this, Nat.succ_div]
    congr 1
    by_cases h : (a + N) % k = p
    · simp [h, (dvd_shift_iff k a N p hp).mpr h]
    · have : ¬ k ∣ N + (a + (k - 1 - p)) % k + 1 := fun hd => h ((dvd_shift_iff k a N p hp).mp hd)
      simp [h, this]

/-- A quotient `(N + c) / k` with `c < k` is the floor or the ceiling of `N / k`. -/
theorem floor_or_ceil (k N c : Nat) (hk : 0 < k) (hc : c < k) :
    (N + c) / k = N / k ∨ (N + c) / k = (N + k - 1) / k := by
  have h1 : N / k ≤ (N + c) / k := Nat.div_le_div_right (by omega)
  have h2 : (N + c) / k ≤ (N + k - 1) / k := Nat.div_le_div_right (by omega)
  have h3 : (N + k - 1) / k ≤ N / k + 1 := by
    have : (N + k - 1) / k ≤ (N + k) / k := Nat.div_le_div_right (by omega)
    rw [Nat.add_div_right _ hk] at this
    exact this
  omega

/-- Round robin on a bucket of two or more: while the counter does not wrap, or
when the size of the bucket divides 2^32, call `j` selects position
`(rr + j) % size`. -/
theorem SelectDsnIndexN_eq (checked : Bool) (b : DsnIndices) (flags : ClusterHostTypeFlags)
    (hb : b ≠ []) (hlen : b.length ≠ 1)
    (hst : (strategyFlags flags).any = false ∨ strategyFlags flags = kRoundRobin) :
    ∀ N rr, (rr + N ≤ 2 ^ 32 ∨ b.length ∣ 2 ^ 32) →
      SelectDsnIndexN checked b flags N rr =
        (List.range N).map (fun j => Except.ok (b.getD ((rr + j) % b.length) 0)) := by
  intro N
  induction N with
  | zero => intro rr _; rfl
  | succ N ih =>
    intro rr hw
    have hstep : SelectDsnIndex checked b flags rr =
        (.ok (b.getD (rr % b.length) 0), (rr + 1) % 2 ^ 32) := by
      rw [SelectDsnIndex_eq checked b flags rr hb, if_pos hst, if_pos hlen]
    have hw' : (rr + 1) % 2 ^ 32 + N ≤ 2 ^ 32 ∨ b.length ∣ 2 ^ 32 := by
      rcases hw with hw | hw
      · left
        have : (rr + 1) % 2 ^ 32 ≤ rr + 1 := Nat.mod_le _ _
        omega
      · exact Or.inr hw
    have hidx : ∀ j ∈ List.range N,
        ((rr + 1) % 2 ^ 32 + j) % b.length = (rr + (j + 1)) % b.length := by
      intro j hj
      rw [List.mem_range] at hj
      rcases hw with hw | hw
      · rw [Nat.mod_eq_of_lt (show rr + 1 < 2 ^ 32 by omega)]
        congr 1
        omega
      · rw [Nat.add_mod, Nat.mod_mod_of_dvd _ hw, ← Nat.add_mod]
        congr 1
        omega
    unfold SelectDsnIndexN
    rw [hstep, ih _ hw', List.range_succ_eq_map, List.map_cons, List.map_map]
    simp only [Nat.add_zero]
    congr 1
    apply List.map_congr_left
    intro j hj
    simp only [Function.comp, Nat.succ_eq_add_one]
    rw [hidx j hj]

/-- Round robin on a bucket of one: every call selects its element. -/
theorem SelectDsnIndexN_single (checked : Bool) (b : DsnIndices) (flags : ClusterHostTypeFlags)
    (hlen : b.length = 1)
    (hst : (strategyFlags flags).any = false ∨ strategyFlags flags = kRoundRobin) :
    ∀ N rr, SelectDsnIndexN checked b flags N rr =
        (List.range N).map (fun j => Except.ok (b.getD ((rr + j) % b.length) 0)) := by
  have hb : b ≠ [] := by
    intro h
    rw [h] at hlen
    cases hlen
  intro N
  induction N with
  | zero => intro rr; rfl
  | succ N ih =>
    intro rr
    have hstep : SelectDsnIndex checked b flags rr = (.ok (b.getD 0 0), rr) := by
      rw [SelectDsnIndex_eq checked b flags rr hb, if_pos hst, if_neg (by simp [hlen])]
    unfold SelectDsnIndexN
    rw [hstep, ih, List.range_succ_eq_map, List.map_cons, List.map_map]
    simp only [hlen, Nat.mod_one]
    rfl

/-- In a bucket without repetition, counting an element among the selections is
counting the calls that hit its position. -/
theorem count_selected (b : DsnIndices) (hnd : b.Nodup) (p : Nat) (hp : p < b.length)
    (a N : Nat) :
    ((List.range N).map (fun j => (Except.ok (b.getD ((a + j) % b.length) 0) :
        Except Failure Nat))).count (.ok (b.getD p 0)) =
      (List.range N).countP (fun j => decide ((a + j) % b.length = p)) := by
  rw [List.count_eq_countP, List.countP_map]
  apply List.countP_congr
  intro j _
  have hq : (a + j) % b.length < b.length := Nat.mod_lt _ (by omega)
  simp only [Function.comp, beq_iff_eq, decide_eq_true_eq]
  rw [List.getD_eq_getElem _ _ hq, List.getD_eq_getElem _ _ hp]
  constructor
  · intro h
    injection h with h
    exact (hnd.getElem_inj_iff).mp h
  · intro h
    simp only [h]

/-- C2, as amended: round-robin fairness while the counter does not wrap. For a
bucket of `k ≥ 1` distinct indices, a request with the RoundRobin strategy or
with no strategy bit, a counter `rr` and `N` consecutive calls such that
`rr + N ≤ 2^32` (the counter does not pass 2^32 during the calls) or `k` divides
2^32, every index of the bucket is selected `⌊N/k⌋` or `⌈N/k⌉` times. -/
theorem round_robin_fair (checked : Bool) (indices : DsnIndices) (flags : ClusterHostTypeFlags)
    (rr N i : Nat) (hne : indices ≠ []) (hnd : indices.Nodup)
    (hst : (strategyFlags flags).any = false ∨ strategyFlags flags = kRoundRobin)
    (hwrap : rr + N ≤ 2 ^ 32 ∨ indices.length ∣ 2 ^ 32) (hi : i ∈ indices) :
    (SelectDsnIndexN checked indices flags N rr).count (.ok i) = N / indices.length ∨
      (SelectDsnIndexN checked indices flags N rr).count (.ok i) =
        (N + indices.length - 1) / indices.length := by
  have hpos : 0 < indices.length := List.length_pos.mpr hne
  obtain ⟨p, hp, hpi⟩ := List.getElem_of_mem hi
  have hi' : i = indices.getD p 0 := by rw [List.getD_eq_getElem _ _ hp, hpi]
  have hlist : SelectDsnIndexN checked indices flags N rr =
      (List.range N).map (fun j => Except.ok (indices.getD ((rr + j) % indices.length) 0)) := by
    by_cases hlen : indices.length = 1
    · exact SelectDsnIndexN_single checked indices flags hlen hst N rr
    · exact SelectDsnIndexN_eq checked indices flags hne hlen hst N rr hwrap
  rw [hlist, hi', count_selected indices hnd p hp rr N, countP_residue _ _ _ hp]
  exact floor_or_ceil _ _ _ hpos (Nat.mod_lt _ hpos)

/-- C2, an instance of the amended claim: four round-robin requests against the
bucket [B, C] from counter 0; B is chosen `4 / 2` times. -/
theorem round_robin_fair_witness :
    (SelectDsnIndexN true [1, 2] kRoundRobin 4 0).count (.ok 1) = 4 / [1, 2].length ∨
      (SelectDsnIndexN true [1, 2] kRoundRobin 4 0).count (.ok 1) =
        (4 + [1, 2].length - 1) / [1, 2].length :=
  round_robin_fair true [1, 2] kRoundRobin 0 4 1 (by decide) (by decide) (by decide)
    (by decide) (by decide)

/-- C2, the claim refuted: on the bucket [0, 1, 2] with the counter at 2^32 - 1,
two round-robin calls both select index 0 (positions `(2^32 - 1) % 3 = 0` and
`0 % 3 = 0`), which is neither `⌊2/3⌋ = 0` nor `⌈2/3⌉ = 1` times. -/
theorem round_robin_unfair_at_wrap :
    SelectDsnIndexN true [0, 1, 2] kRoundRobin 2 4294967295 = [.ok 0, .ok 0] ∧
      (SelectDsnIndexN true [0, 1, 2] kRoundRobin 2 4294967295).count (.ok 0) ≠ 2 / 3 ∧
      (SelectDsnIndexN true [0, 1, 2] kRoundRobin 2 4294967295).count (.ok 0) ≠
        (2 + 3 - 1) / 3 := by
  decide

/-! ## C3, C4: statistics -/

/-- With one pool per endpoint, describing an endpoint index succeeds. -/
theorem describe_ok (checked : Bool) (c : ClusterImpl) (i : Nat) (hp : PoolPerEndpoint c)
    (hi : i < c.topology_.dsn_list.length) : describe checked c i = .ok i := by
  unfold PoolPerEndpoint at hp
  unfold describe UASSERT
  cases checked <;> simp [hi, hp]

/-- The Master and SyncSlave blocks report the front of the bucket and mark it
seen. -/
theorem frontBlock_ok (checked : Bool) (c : ClusterImpl) (role : ClusterHostType)
    (seen : List Bool) (hp : PoolPerEndpoint c)
    (hlen : seen.length = c.topology_.dsn_list.length)
    (hr : ∀ i ∈ bucket c role, i < c.topology_.dsn_list.length) :
    ∃ seen', frontBlock checked c role seen = .ok ((bucket c role).head?, seen') ∧
      seen'.length = seen.length ∧
      ∀ i, seen'[i]? = some true ↔ (seen[i]? = some true ∨ (bucket c role).head? = some i) := by
  unfold frontBlock
  unfold bucket second at hr ⊢
  cases hb : c.topology_.indices_by_type role with
  | none => exact ⟨seen, by simp⟩
  | some l =>
    cases l with
    | nil => exact ⟨seen, by simp⟩
    | cons x xs =>
      rw [hb] at hr
      have hx : x < c.topology_.dsn_list.length := hr x (by simp)
      refine ⟨seen.set x true, ?_, by simp, ?_⟩
      · simp [describe_ok checked c x hp hx, hlen, hx]
      · intro i
        rw [List.getElem?_set]
        by_cases hxi : x = i
        · subst hxi
          simp [hlen, hx]
        · simp [hxi]

/-- The Slave loop marks every index of the bucket seen and appends those that
were not seen before. -/
theorem slavesLoop_ok (checked : Bool) (c : ClusterImpl) (hp : PoolPerEndpoint c) :
    ∀ (l : DsnIndices) (seen : List Bool) (slaves : List Nat),
      seen.length = c.topology_.dsn_list.length →
      (∀ i ∈ l, i < c.topology_.dsn_list.length) →
      ∃ seen' slaves', slavesLoop checked c l (seen, slaves) = .ok (seen', slaves') ∧
        seen'.length = seen.length ∧
        (∀ i, seen'[i]? = some true ↔ (seen[i]? = some true ∨ i ∈ l)) ∧
        (∀ i, i ∈ slaves' ↔ (i ∈ slaves ∨ (i ∈ l ∧ seen[i]? ≠ some true))) := by
  intro l
  induction l with
  | nil =>
    intro seen slaves _ _
    exact ⟨seen, slaves, rfl, rfl, by simp, by simp⟩
  | cons x xs ih =>
    intro seen slaves hlen hr
    have hx : x < c.topology_.dsn_list.length := hr x (by simp)
    have hxs : ∀ i ∈ xs, i < c.topology_.dsn_list.length := fun i hi => hr i (by simp [hi])
    have hxl : x < seen.length := by omega
    unfold slavesLoop
    rw [List.getElem?_eq_getElem hxl]
    cases hsx : seen[x] with
    | true =>
      obtain ⟨seen', slaves', h1, h2, h3, h4⟩ := ih seen slaves hlen hxs
      refine ⟨seen', slaves', by simpa using h1, h2, ?_, ?_⟩
      · intro i
        rw [h3 i]
        constructor
        · rintro (h | h)
          · exact Or.inl h
          · exact Or.inr (by simp [h])
        · rintro (h | h)
          · exact Or.inl h
          · rcases List.mem_cons.mp h with h | h
            · subst h
              left
              rw [List.getElem?_eq_getElem hxl, hsx]
            · exact Or.inr h
      · intro i
        rw [h4 i]
        constructor
        · rintro (h | ⟨h, h'⟩)
          · exact Or.inl h
          · exact Or.inr ⟨by simp [h], h'⟩
        · rintro (h | ⟨h, h'⟩)
          · exact Or.inl h
          · rcases List.mem_cons.mp h with h | h
            · subst h
              rw [List.getElem?_eq_getElem hxl, hsx] at h'
              exact absurd rfl h'
            · exact Or.inr ⟨h, h'⟩
    | false =>
      obtain ⟨seen', slaves', h1, h2, h3, h4⟩ :=
        ih (seen.set x true) (slaves ++ [x]) (by simpa using hlen) hxs
      refine ⟨seen', slaves', ?_, by simpa using h2, ?_, ?_⟩
      · simpa [describe_ok checked c x hp hx] using h1
      · intro i
        rw [h3 i, List.getElem?_set]
        by_cases hxi : x = i
        · subst hxi
          simp [hxl]
        · have : i ≠ x := fun h => hxi h.symm
          simp [hxi, this]
      · intro i
        rw [h4 i, List.getElem?_set]
        by_cases hxi : x = i
        · subst hxi
          simp [hxl, List.getElem?_eq_getElem hxl, hsx]
        · have : i ≠ x := fun h => hxi h.symm
          simp [hxi, this]

/-- The final loop appends the positions that are not seen, in order. -/
theorem unknownLoop_ok (checked : Bool) (c : ClusterImpl) (hp : PoolPerEndpoint c)
    (seen : List Bool) :
    ∀ (l : List Nat) (acc : List Nat), (∀ i ∈ l, i < c.topology_.dsn_list.length) →
      unknownLoop checked c seen l acc =
        .ok (acc ++ l.filter (fun i => !seen.getD i false)) := by
  intro l
  induction l with
  | nil => intro acc _; simp [unknownLoop]
  | cons x xs ih =>
    intro acc hr
    have hx : x < c.topology_.dsn_list.length := hr x (by simp)
    have hxs : ∀ i ∈ xs, i < c.topology_.dsn_list.length := fun i hi => hr i (by simp [hi])
    unfold unknownLoop
    cases hsx : seen.getD x false with
    | true =>
      rw [List.getD_eq_getElem?_getD] at hsx
      simp [ih acc hxs, List.filter_cons, hsx]
    | false =>
      rw [List.getD_eq_getElem?_getD] at hsx
      simp [ih _ hxs, describe_ok checked c x hp hx, List.filter_cons, hsx]

/-- `GetStatistics` on a cluster with one pool per endpoint and buckets in range:
it returns, and this is what each category holds. -/
theorem GetStatistics_ok (checked : Bool) (c : ClusterImpl) (hp : PoolPerEndpoint c)
    (hr : BucketsInRange c) :
    ∃ s, GetStatistics checked c = .ok s ∧
      s.master = (bucket c kMaster).head? ∧
      s.sync_slave = (bucket c kSyncSlave).head? ∧
      (∀ i, i ∈ s.slaves ↔ (i ∈ bucket c kSlave ∧ (bucket c kMaster).head? ≠ some i ∧
        (bucket c kSyncSlave).head? ≠ some i)) ∧
      (∀ i, i ∈ s.unknown ↔ (i < c.topology_.dsn_list.length ∧
        (bucket c kMaster).head? ≠ some i ∧ (bucket c kSyncSlave).head? ≠ some i ∧
        i ∉ bucket c kSlave)) := by
  obtain ⟨hrm, hrs, hrl⟩ := hr
  have hlen0 : (List.replicate c.topology_.dsn_list.length false).length =
      c.topology_.dsn_list.length := by simp
  obtain ⟨seen1, hf1, hl1, hs1⟩ := frontBlock_ok checked c kMaster _ hp hlen0 hrm
  obtain ⟨seen2, hf2, hl2, hs2⟩ :=
    frontBlock_ok checked c kSyncSlave seen1 hp (by omega) hrs
  obtain ⟨seen3, slaves, hf3, hl3, hs3, hsl⟩ :=
    slavesLoop_ok checked c hp (bucket c kSlave) seen2 [] (by omega) hrl
  have hf4 := unknownLoop_ok checked c hp seen3 (List.range seen3.length) []
    (by intro i hi; rw [List.mem_range] at hi; omega)
  have hua : UASSERT checked (decide (c.host_pools_.length = c.topology_.dsn_list.length)) =
      .ok () := by
    unfold PoolPerEndpoint at hp
    simp [UASSERT, hp]
  have hseen0 : ∀ i : Nat,
      (List.replicate c.topology_.dsn_list.length false)[i]? ≠ some true := by
    intro i
    rw [List.getElem?_replicate]
    split_ifs <;> simp
  refine ⟨⟨(bucket c kMaster).head?, (bucket c kSyncSlave).head?, slaves,
    [] ++ (List.range seen3.length).filter (fun i => !seen3.getD i false)⟩, ?_, rfl, rfl, ?_, ?_⟩
  · unfold GetStatistics
    simp only [hua, hf1, hf2]
    have : second (c.topology_.indices_by_type kSlave) = bucket c kSlave := rfl
    unfold second at this
    simp only [this, hf3, hf4]
  · intro i
    simp only []
    rw [hsl i]
    have h2 := hs2 i
    have h1 := hs1 i
    have h0 := hseen0 i
    constructor
    · rintro (h | ⟨hm, hn⟩)
      · simp at h
      · refine ⟨hm, ?_, ?_⟩
        · intro hh; exact hn (h2.mpr (Or.inl (h1.mpr (Or.inr hh))))
        · intro hh; exact hn (h2.mpr (Or.inr hh))
    · rintro ⟨hm, hn1, hn2⟩
      right
      refine ⟨hm, ?_⟩
      intro hh
      rcases h2.mp hh with hh | hh
      · rcases h1.mp hh with hh | hh
        · exact h0 hh
        · exact hn1 hh
      · exact hn2 hh
  · intro i
    simp only [List.nil_append, List.mem_filter, List.mem_range]
    have h3 := hs3 i
    have h2 := hs2 i
    have h1 := hs1 i
    have h0 := hseen0 i
    have hlen3 : seen3.length = c.topology_.dsn_list.length := by omega
    rw [hlen3]
    have hget : (!seen3.getD i false) = true ↔ seen3[i]? ≠ some true := by
      rw [List.getD_eq_getElem?_getD]
      cases seen3[i]? with
      | none => simp
      | some b => cases b <;> simp
    rw [hget]
    constructor
    · rintro ⟨hi, hn⟩
      refine ⟨hi, ?_, ?_, ?_⟩
      · intro hh; exact hn (h3.mpr (Or.inl (h2.mpr (Or.inl (h1.mpr (Or.inr hh))))))
      · intro hh; exact hn (h3.mpr (Or.inl (h2.mpr (Or.inr hh))))
      · intro hh; exact hn (h3.mpr (Or.inr hh))
    · rintro ⟨hi, hn1, hn2, hn3⟩
      refine ⟨hi, ?_⟩
      intro hh
      rcases h3.mp hh with hh | hh
      · rcases h2.mp hh with hh | hh
        · rcases h1.mp hh with hh | hh
          · exact h0 hh
          · exact hn1 hh
        · exact hn2 hh
      · exact hn3 hh

/-- C3, the code at the failing input: with the stale snapshot Master: [A],
SyncSlave: [A] over endpoints A, B, `GetStatistics` reports endpoint A (index 0)
both under `master` and under `sync_slave`; the SyncSlave block marks the seen
vector without reading it, unlike the Slave loop. -/
theorem GetStatistics_master_also_sync_slave :
    ∀ checked, GetStatistics checked staleMasterSync = .ok ⟨some 0, some 0, [], [1]⟩ := by
  decide

/-- C4, the claim refuted: with Master: [A, B] and SyncSlave: [B] (all indices in
range), B (index 1) is a non-first member of the Master bucket and is not in the
Slave bucket, yet it is reported under `sync_slave` and not under `unknown`. -/
theorem GetStatistics_master_tail_not_unknown :
    PoolPerEndpoint staleMasterTail ∧ BucketsInRange staleMasterTail ∧
      1 ∈ bucket staleMasterTail kMaster ∧ (bucket staleMasterTail kMaster).head? ≠ some 1 ∧
      1 ∉ bucket staleMasterTail kSlave ∧
      GetStatistics true staleMasterTail = .ok ⟨some 0, some 1, [], []⟩ ∧
      ∀ s, GetStatistics true staleMasterTail = .ok s → 1 ∉ s.unknown := by
  refine ⟨by decide, by decide, by decide, by decide, by decide, by decide, ?_⟩
  intro s hs
  rw [show GetStatistics true staleMasterTail = .ok ⟨some 0, some 1, [], []⟩ from by decide] at hs
  injection hs with hs
  rw [← hs]
  decide

/-- C4, as amended: on a cluster with one pool per endpoint whose bucket indices
are all below the endpoint count `n`, `GetStatistics` returns a report in which
every index below `n` is reported in some category and every reported index is
below `n`; every endpoint that is in none of the three role buckets, and every
member of the Master or SyncSlave bucket that is the first element of neither of
those two buckets and is not in the Slave bucket, is reported under `unknown`. -/
theorem GetStatistics_covers (checked : Bool) (c : ClusterImpl) (hp : PoolPerEndpoint c)
    (hr : BucketsInRange c) :
    ∃ s, GetStatistics checked c = .ok s ∧
      (∀ i, i < c.topology_.dsn_list.length → Reported s i) ∧
      (∀ i, Reported s i → i < c.topology_.dsn_list.length) ∧
      (∀ i, i < c.topology_.dsn_list.length → i ∉ bucket c kMaster →
        i ∉ bucket c kSyncSlave → i ∉ bucket c kSlave → i ∈ s.unknown) ∧
      (∀ i, (i ∈ bucket c kMaster ∨ i ∈ bucket c kSyncSlave) →
        (bucket c kMaster).head? ≠ some i → (bucket c kSyncSlave).head? ≠ some i →
        i ∉ bucket c kSlave → i ∈ s.unknown) := by
  obtain ⟨s, hs, hm, hss, hsl, hun⟩ := GetStatistics_ok checked c hp hr
  have hhead : ∀ (l : List Nat) (i : Nat), l.head? = some i → i ∈ l := by
    intro l i h
    cases l with
    | nil => simp at h
    | cons x xs =>
      simp at h
      simp [h]
  refine ⟨s, hs, ?_, ?_, ?_, ?_⟩
  · intro i hi
    unfold Reported
    by_cases h1 : (bucket c kMaster).head? = some i
    · exact Or.inl (hm.trans h1)
    · by_cases h2 : (bucket c kSyncSlave).head? = some i
      · exact Or.inr (Or.inl (hss.trans h2))
      · by_cases h3 : i ∈ bucket c kSlave
        · exact Or.inr (Or.inr (Or.inl ((hsl i).mpr ⟨h3, h1, h2⟩)))
        · exact Or.inr (Or.inr (Or.inr ((hun i).mpr ⟨hi, h1, h2, h3⟩)))
  · intro i hrep
    rcases hrep with h | h | h | h
    · exact hr.1 i (hhead _ _ (hm ▸ h))
    · exact hr.2.1 i (hhead _ _ (hss ▸ h))
    · exact hr.2.2 i ((hsl i).mp h).1
    · exact ((hun i).mp h).1
  · intro i hi h1 h2 h3
    exact (hun i).mpr ⟨hi, fun h => h1 (hhead _ _ h), fun h => h2 (hhead _ _ h), h3⟩
  · intro i hmem h1 h2 h3
    have hi : i < c.topology_.dsn_list.length := by
      rcases hmem with h | h
      · exact hr.1 i h
      · exact hr.2.1 i h
    exact (hun i).mpr ⟨hi, h1, h2, h3⟩

/-- C4, an instance of the amended claim: the cluster over A, B, C with
Master: [A], Slave: [B, C]. -/
theorem GetStatistics_covers_witness :
    ∃ s, GetStatistics true (abcBDead 0) = .ok s ∧
      (∀ i, i < (abcBDead 0).topology_.dsn_list.length → Reported s i) ∧
      (∀ i, Reported s i → i < (abcBDead 0).topology_.dsn_list.length) ∧
      (∀ i, i < (abcBDead 0).topology_.dsn_list.length → i ∉ bucket (abcBDead 0) kMaster →
        i ∉ bucket (abcBDead 0) kSyncSlave → i ∉ bucket (abcBDead 0) kSlave → i ∈ s.unknown) ∧
      (∀ i, (i ∈ bucket (abcBDead 0) kMaster ∨ i ∈ bucket (abcBDead 0) kSyncSlave) →
        (bucket (abcBDead 0) kMaster).head? ≠ some i →
        (bucket (abcBDead 0) kSyncSlave).head? ≠ some i →
        i ∉ bucket (abcBDead 0) kSlave → i ∈ s.unknown) :=
  GetStatistics_covers true (abcBDead 0) (by decide) (by decide)

/-! ## C5: SyncSlave combined with another role -/

theorem roles_any_of_sync : ∀ flags : ClusterHostTypeFlags,
    (roleFlags flags &&& kSyncSlave).any = true → (roleFlags flags).any = true := by
  decide

/-- In a build that checks assertions `FindPool` stops at its second assertion
when SyncSlave comes with another role bit. -/
theorem FindPool_sync_combined_asserts (c : ClusterImpl) (flags : ClusterHostTypeFlags)
    (hss : (roleFlags flags &&& kSyncSlave).any = true) (hother : roleFlags flags ≠ kSyncSlave) :
    FindPool true c flags = (.error .AssertionFailed, c.rr_host_idx_) := by
  have h1 := roles_any_of_sync flags hss
  unfold roleFlags at h1 hss hother
  unfold FindPool UASSERT
  simp [h1, hss, hother]

theorem Begin_write_eq (checked : Bool) (c : ClusterImpl) (flags : ClusterHostTypeFlags)
    (hm : (roleFlags flags).any = false ∨ (roleFlags flags &&& kMaster).any = true) :
    Begin checked c flags false =
      selectIn checked c (kMaster ||| flags.Clear kClusterHostRolesMask) (bucket c kMaster) := by
  have hsr : ∀ f : ClusterHostTypeFlags,
      roleFlags (kMaster ||| f.Clear kClusterHostRolesMask) = kMaster := by decide
  have hcond : ((roleFlags flags).any && !(roleFlags flags &&& kMaster).any) = false := by
    rcases hm with h | h <;> simp [h]
  unfold roleFlags at hcond
  unfold Begin
  simp only [Bool.false_eq_true, ↓reduceIte, hcond]
  rw [FindPool_singleRole checked c _ (Or.inl (hsr flags)), hsr flags]
  simp [resolvedBucket]


/-- C5, the claim refuted: a write-intent `Begin` with SyncSlave|Master is routed
to the master endpoint A; no error is raised. -/
theorem Begin_write_sync_master_selects :
    Begin true (abcBDead 0) (kSyncSlave ||| kMaster ||| kRoundRobin) false = (.ok 0, 0) := by
  decide

/-- C5, as amended: for flags whose role bits contain SyncSlave and another role
bit. In a build that checks assertions, `FindPool`, `Start` and read-only `Begin`
fail the assertion "kSyncSlave cannot be combined with other roles" (an assertion
failure, there is no ConfigurationError), select no endpoint and leave the
counter unchanged. Write-intent `Begin` does not reach that assertion in any
build: without the Master bit it fails with ClusterUnavailable, and with the
Master bit it is routed as a plain Master request with the caller's strategy
bits, through the Master bucket. -/
theorem sync_slave_combined (c : ClusterImpl) (flags : ClusterHostTypeFlags)
    (hss : (roleFlags flags &&& kSyncSlave).any = true) (hother : roleFlags flags ≠ kSyncSlave) :
    FindPool true c flags = (.error .AssertionFailed, c.rr_host_idx_) ∧
    Start true c flags = (.error .AssertionFailed, c.rr_host_idx_) ∧
    Begin true c flags true = (.error .AssertionFailed, c.rr_host_idx_) ∧
    (∀ checked, (roleFlags flags &&& kMaster).any = false →
      Begin checked c flags false = (.error .ClusterUnavailable, c.rr_host_idx_)) ∧
    (∀ checked, (roleFlags flags &&& kMaster).any = true →
      Begin checked c flags false =
        selectIn checked c (kMaster ||| flags.Clear kClusterHostRolesMask) (bucket c kMaster)) := by
  have h1 := roles_any_of_sync flags hss
  have hf := FindPool_sync_combined_asserts c flags hss hother
  refine ⟨hf, ?_, ?_, ?_, ?_⟩
  · unfold roleFlags at h1
    unfold Start
    simp [h1, hf]
  · unfold roleFlags at h1
    unfold Begin
    simp [h1, hf]
  · intro checked hm
    unfold roleFlags at h1 hm
    unfold Begin
    simp [h1, hm]
  · intro checked hm
    exact Begin_write_eq checked c flags (Or.inr hm)

/-- C5, an instance of the amended claim: SyncSlave|Slave on the cluster A, B, C. -/
theorem sync_slave_combined_witness :
    FindPool true (abcBDead 0) (kSyncSlave ||| kSlave) =
        (.error .AssertionFailed, (abcBDead 0).rr_host_idx_) ∧
    Start true (abcBDead 0) (kSyncSlave ||| kSlave) =
        (.error .AssertionFailed, (abcBDead 0).rr_host_idx_) ∧
    Begin true (abcBDead 0) (kSyncSlave ||| kSlave) true =
        (.error .AssertionFailed, (abcBDead 0).rr_host_idx_) ∧
    (∀ checked, (roleFlags (kSyncSlave ||| kSlave) &&& kMaster).any = false →
      Begin checked (abcBDead 0) (kSyncSlave ||| kSlave) false =
        (.error .ClusterUnavailable, (abcBDead 0).rr_host_idx_)) ∧
    (∀ checked, (roleFlags (kSyncSlave ||| kSlave) &&& kMaster).any = true →
      Begin checked (abcBDead 0) (kSyncSlave ||| kSlave) false =
        selectIn checked (abcBDead 0)
          (kMaster ||| (kSyncSlave ||| kSlave).Clear kClusterHostRolesMask)
          (bucket (abcBDead 0) kMaster)) :=
  sync_slave_combined (abcBDead 0) (kSyncSlave ||| kSlave) (by decide) (by decide)

/-! ## C6, C7: strategy bits -/

/-- With both strategy bits `SelectDsnIndex` selects nothing: on a non-empty list
it throws LogicError. -/
theorem SelectDsnIndex_both (checked : Bool) (b : DsnIndices) (flags : ClusterHostTypeFlags)
    (rr : Nat) (hboth : strategyFlags flags = kClusterHostStrategyMask) (hb : b ≠ []) :
    SelectDsnIndex checked b flags rr = (.error .LogicError, rr) := by
  rw [SelectDsnIndex_eq checked b flags rr hb, hboth]
  simp +decide

theorem selectIn_both (checked : Bool) (c : ClusterImpl) (flags : ClusterHostTypeFlags)
    (b : DsnIndices) (hboth : strategyFlags flags = kClusterHostStrategyMask) :
    selectIn checked c flags b =
      (.error (if b = [] then .ClusterUnavailable else .LogicError), c.rr_host_idx_) := by
  unfold selectIn
  by_cases hb : b = []
  · simp [hb]
  · simp [hb, SelectDsnIndex_both checked b flags _ hboth hb, lookupPool]

/-- C6, the claim refuted: with both strategy bits set and an empty topology, a
Master request fails with ClusterUnavailable. -/
theorem FindPool_both_strategies_unavailable :
    FindPool true emptyCluster (kMaster ||| kRoundRobin ||| kNearest) =
      (.error .ClusterUnavailable, 0) := by
  decide

/-- C6, as amended: with both strategy bits set `FindPool` selects no endpoint and
leaves the counter unchanged, for every role set and topology; the strategy is
examined only after the bucket is resolved, so a single-role request fails with
ClusterUnavailable when the bucket it resolves to is empty and with LogicError
otherwise, and a Master|Slave request fails with ClusterUnavailable when the
liveness set is empty and with LogicError otherwise. -/
theorem both_strategies (checked : Bool) (c : ClusterImpl) (flags : ClusterHostTypeFlags)
    (hboth : strategyFlags flags = kClusterHostStrategyMask) :
    (∃ e, FindPool checked c flags = (.error e, c.rr_host_idx_)) ∧
    (SingleRole flags →
      FindPool checked c flags =
        (.error (if resolvedBucket c (roleFlags flags) = [] then .ClusterUnavailable
          else .LogicError), c.rr_host_idx_)) ∧
    (roleFlags flags = kMaster ||| kSlave →
      FindPool checked c flags =
        (.error (if c.topology_.alive_indices = [] then .ClusterUnavailable
          else .LogicError), c.rr_host_idx_)) := by
  have hsel : ∀ b : DsnIndices, b.isEmpty = false →
      SelectDsnIndex checked b flags c.rr_host_idx_ = (.error .LogicError, c.rr_host_idx_) := by
    intro b hb
    apply SelectDsnIndex_both checked b flags _ hboth
    intro h
    simp [h] at hb
  have hnb : ∀ o : Option DsnIndices, ¬ noBucket o = true → (second o).isEmpty = false := by
    intro o h
    cases o with
    | none => simp [noBucket] at h
    | some l => simpa [noBucket, second] using h
  refine ⟨?_, ?_, ?_⟩
  · unfold FindPool
    simp only []
    split
    · exact ⟨_, rfl⟩
    · split
      · exact ⟨_, rfl⟩
      · split_ifs with h1 h2
        · exact ⟨_, rfl⟩
        · rw [hsel _ (by simpa using h2)]
          exact ⟨_, rfl⟩
        · split
          · exact ⟨_, rfl⟩
          · split_ifs with h3
            · exact ⟨_, rfl⟩
            · rw [hsel _ (hnb _ h3)]
              exact ⟨_, rfl⟩
  · intro hs
    rw [FindPool_singleRole checked c flags hs, selectIn_both checked c flags _ hboth]
  · intro hr
    unfold roleFlags at hr
    unfold FindPool UASSERT
    rw [hr]
    by_cases ha : c.topology_.alive_indices = []
    · simp +decide [ha, lookupPool]
    · have ha' : c.topology_.alive_indices.isEmpty = false := by
        cases hl : c.topology_.alive_indices with
        | nil => exact absurd hl ha
        | cons x xs => rfl
      simp +decide [ha, hsel _ ha', lookupPool]

/-- C6, an instance of the amended claim: a Master request with both strategy
bits on the cluster A, B, C. -/
theorem both_strategies_witness :
    (∃ e, FindPool true (abcBDead 0) (kMaster ||| kRoundRobin ||| kNearest) =
      (.error e, (abcBDead 0).rr_host_idx_)) ∧
    (SingleRole (kMaster ||| kRoundRobin ||| kNearest) →
      FindPool true (abcBDead 0) (kMaster ||| kRoundRobin ||| kNearest) =
        (.error (if resolvedBucket (abcBDead 0)
            (roleFlags (kMaster ||| kRoundRobin ||| kNearest)) = [] then .ClusterUnavailable
          else .LogicError), (abcBDead 0).rr_host_idx_)) ∧
    (roleFlags (kMaster ||| kRoundRobin ||| kNearest) = kMaster ||| kSlave →
      FindPool true (abcBDead 0) (kMaster ||| kRoundRobin ||| kNearest) =
        (.error (if (abcBDead 0).topology_.alive_indices = [] then .ClusterUnavailable
          else .LogicError), (abcBDead 0).rr_host_idx_)) :=
  both_strategies true (abcBDead 0) (kMaster ||| kRoundRobin ||| kNearest) (by decide)

/-- C7, the claim refuted: a Master request without any strategy bit selects the
master endpoint A. -/
theorem FindPool_no_strategy_selects :
    FindPool true (abcBDead 0) kMaster = (.ok 0, 0) := by
  decide

/-- Adding the RoundRobin bit to flags without strategy bits does not change what
`SelectDsnIndex` does. -/
theorem SelectDsnIndex_no_strategy (checked : Bool) (b : DsnIndices)
    (flags : ClusterHostTypeFlags) (rr : Nat) (hnone : (strategyFlags flags).any = false) :
    SelectDsnIndex checked b (flags ||| kRoundRobin) rr = SelectDsnIndex checked b flags rr := by
  have h1 : ∀ f : ClusterHostTypeFlags, (strategyFlags f).any = false →
      (f ||| kRoundRobin) &&& kClusterHostStrategyMask = kRoundRobin := by decide
  unfold strategyFlags at hnone
  unfold SelectDsnIndex
  simp only [h1 flags hnone, hnone]
  simp

/-- C7, as amended: a request with no strategy bit is not rejected; `FindPool`
treats it exactly as the same request with the RoundRobin bit. -/
theorem no_strategy_is_round_robin (checked : Bool) (c : ClusterImpl)
    (flags : ClusterHostTypeFlags) (hnone : (strategyFlags flags).any = false) :
    FindPool checked c flags = FindPool checked c (flags ||| kRoundRobin) := by
  have h1 : ∀ f : ClusterHostTypeFlags,
      (f ||| kRoundRobin) &&& kClusterHostRolesMask = f &&& kClusterHostRolesMask := by decide
  unfold FindPool
  simp only [h1 flags, SelectDsnIndex_no_strategy checked _ flags _ hnone]

/-- C7, an instance of the amended claim: the Slave request without strategy bits
on the cluster A, B, C. -/
theorem no_strategy_is_round_robin_witness :
    FindPool true (abcBDead 0) kSlave = FindPool true (abcBDead 0) (kSlave ||| kRoundRobin) :=
  no_strategy_is_round_robin true (abcBDead 0) kSlave (by decide)

/-! ## C8, C9: fallback and availability -/

/-- On a non-empty bucket whose indices all have a pool, a request with at most
one strategy bit is served from the bucket. -/
theorem selectIn_valid (checked : Bool) (c : ClusterImpl) (flags : ClusterHostTypeFlags)
    (b : DsnIndices) (hb : b ≠ []) (hstrat : strategyFlags flags ≠ kClusterHostStrategyMask)
    (hrange : ∀ i ∈ b, i < c.host_pools_.length) :
    ∃ i rr', selectIn checked c flags b = (.ok i, rr') ∧ i ∈ b := by
  have hs : ∀ f : ClusterHostTypeFlags, strategyFlags f ≠ kClusterHostStrategyMask →
      (strategyFlags f).any = false ∨ strategyFlags f = kRoundRobin ∨
        strategyFlags f = kNearest := by decide
  have hsel : ∃ i rr', SelectDsnIndex checked b flags c.rr_host_idx_ = (.ok i, rr') := by
    rw [SelectDsnIndex_eq checked b flags _ hb]
    rcases hs flags hstrat with h | h | h
    · rw [if_pos (Or.inl h)]
      split_ifs <;> exact ⟨_, _, rfl⟩
    · rw [if_pos (Or.inr h)]
      split_ifs <;> exact ⟨_, _, rfl⟩
    · rw [h, if_neg (by decide), if_neg (by decide)]
      exact ⟨_, _, rfl⟩
  obtain ⟨i, rr', hi⟩ := hsel
  have hmem := SelectDsnIndex_mem hi
  refine ⟨i, rr', ?_, hmem⟩
  unfold selectIn
  rw [if_neg hb, hi]
  simp [lookupPool, poolAt_eq, hrange i hmem]

/-- C8, the claim refuted: a SyncSlave request carrying both strategy bits, with no
SyncSlave bucket and the Master bucket [A], does not succeed. -/
theorem FindPool_fallback_both_strategies_fails :
    FindPool true (abcBDead 0) (kSyncSlave ||| kRoundRobin ||| kNearest) =
      (.error .LogicError, 0) := by
  decide

/-- C8, as amended: for a request whose single role is SyncSlave or Slave, whose
own bucket is empty or absent, that carries at most one strategy bit, on a
topology whose Master bucket is non-empty and holds only indices that have a
pool, `FindPool` succeeds and the selected index is an element of the Master
bucket. -/
theorem fallback_to_master (checked : Bool) (c : ClusterImpl) (flags : ClusterHostTypeFlags)
    (hrole : roleFlags flags = kSyncSlave ∨ roleFlags flags = kSlave)
    (hown : noBucket (c.topology_.indices_by_type (roleFlags flags)) = true)
    (hm : noBucket (c.topology_.indices_by_type kMaster) = false)
    (hstrat : strategyFlags flags ≠ kClusterHostStrategyMask)
    (hrange : ∀ i ∈ bucket c kMaster, i < c.host_pools_.length) :
    ∃ i rr', FindPool checked c flags = (.ok i, rr') ∧ i ∈ bucket c kMaster := by
  have hne : roleFlags flags ≠ kMaster := by
    rcases hrole with h | h <;> rw [h] <;> decide
  have hmb : bucket c kMaster ≠ [] := by
    intro h
    rw [(noBucket_iff c kMaster).mpr h] at hm
    cases hm
  rw [FindPool_singleRole checked c flags (Or.inr hrole)]
  have hres : resolvedBucket c (roleFlags flags) = bucket c kMaster := by
    unfold resolvedBucket
    rw [if_pos ⟨hne, (noBucket_iff c _).mp hown⟩]
  rw [hres]
  exact selectIn_valid checked c flags _ hmb hstrat hrange

/-- C8, an instance of the amended claim: a SyncSlave request on the cluster
A, B, C, which has no SyncSlave bucket. -/
theorem fallback_to_master_witness :
    ∃ i rr', FindPool true (abcBDead 0) (kSyncSlave ||| kNearest) = (.ok i, rr') ∧
      i ∈ bucket (abcBDead 0) kMaster :=
  fallback_to_master true (abcBDead 0) (kSyncSlave ||| kNearest) (by decide) (by decide)
    (by decide) (by decide) (by decide)

/-- C9: for a request with exactly one role bit, `FindPool` fails with
ClusterUnavailable exactly when the bucket it resolves to is empty, that is, when
the Master bucket is empty or absent and the role is Master or the role's own
bucket is empty or absent; a Master request with an empty or absent Master bucket
fails with ClusterUnavailable whatever the other buckets hold. -/
theorem FindPool_unavailable_iff (checked : Bool) (c : ClusterImpl)
    (flags : ClusterHostTypeFlags) (h : SingleRole flags) :
    ((FindPool checked c flags).1 = .error .ClusterUnavailable ↔
      resolvedBucket c (roleFlags flags) = []) ∧
    ((FindPool checked c flags).1 = .error .ClusterUnavailable ↔
      (noBucket (c.topology_.indices_by_type kMaster) = true ∧
        (roleFlags flags = kMaster ∨
          noBucket (c.topology_.indices_by_type (roleFlags flags)) = true))) ∧
    (roleFlags flags = kMaster → noBucket (c.topology_.indices_by_type kMaster) = true →
      FindPool checked c flags = (.error .ClusterUnavailable, c.rr_host_idx_)) := by
  have h1 : (FindPool checked c flags).1 = .error .ClusterUnavailable ↔
      resolvedBucket c (roleFlags flags) = [] := by
    rw [FindPool_singleRole checked c flags h]
    exact selectIn_unavailable_iff checked c flags _
  refine ⟨h1, ?_, ?_⟩
  · rw [h1, resolvedBucket_eq_nil_iff, noBucket_iff, noBucket_iff]
  · intro hr hm
    rw [FindPool_singleRole checked c flags h, hr]
    have : resolvedBucket c kMaster = [] := by
      rw [resolvedBucket_eq_nil_iff]
      exact ⟨(noBucket_iff c kMaster).mp hm, Or.inl rfl⟩
    simp [selectIn, this]

/-- C9, an instance: a Master request on a cluster whose Master bucket is absent. -/
theorem FindPool_unavailable_iff_witness :
    ((FindPool true emptyCluster kMaster).1 = .error .ClusterUnavailable ↔
      resolvedBucket emptyCluster (roleFlags kMaster) = []) ∧
    ((FindPool true emptyCluster kMaster).1 = .error .ClusterUnavailable ↔
      (noBucket (emptyCluster.topology_.indices_by_type kMaster) = true ∧
        (roleFlags kMaster = kMaster ∨
          noBucket (emptyCluster.topology_.indices_by_type (roleFlags kMaster)) = true))) ∧
    (roleFlags kMaster = kMaster →
      noBucket (emptyCluster.topology_.indices_by_type kMaster) = true →
      FindPool true emptyCluster kMaster =
        (.error .ClusterUnavailable, emptyCluster.rr_host_idx_)) :=
  FindPool_unavailable_iff true emptyCluster kMaster (by decide)

/-! ## C10: write intent on a role without Master -/

/-- C10: a write-intent `Begin` whose role bits are non-empty and do not include
Master fails with ClusterUnavailable, whatever the topology, the strategy bits
and the build; nothing of the topology is read and the round-robin counter keeps
its value. -/
theorem Begin_write_without_master (checked : Bool) (c : ClusterImpl)
    (flags : ClusterHostTypeFlags) (hne : (roleFlags flags).any = true)
    (hnm : (roleFlags flags &&& kMaster).any = false) :
    Begin checked c flags false = (.error .ClusterUnavailable, c.rr_host_idx_) := by
  unfold roleFlags at hne hnm
  unfold Begin
  simp [hne, hnm]

/-- C10, an instance: a write-intent `Begin` on Slave, on the cluster A, B, C at
counter 7. -/
theorem Begin_write_without_master_witness :
    Begin true (abcBDead 7) (kSlave ||| kRoundRobin) false =
      (.error .ClusterUnavailable, (abcBDead 7).rr_host_idx_) :=
  Begin_write_without_master true (abcBDead 7) (kSlave ||| kRoundRobin) (by decide) (by decide)

/-! ## C11, C12: the flags `Begin` passes to `FindPool` -/

/-- `Begin` is `FindPool` on the flags that `BeginFlags` computes. -/
theorem Begin_eq (checked : Bool) (c : ClusterImpl) (flags : ClusterHostTypeFlags)
    (read_only : Bool) :
    Begin checked c flags read_only =
      match BeginFlags flags read_only with
      | .error e => (.error e, c.rr_host_idx_)
      | .ok f => FindPool checked c f := by
  unfold Begin BeginFlags
  simp only []
  split_ifs <;> rfl

/-- C11: a write-intent `Begin` whose role bits are empty or contain Master passes
to `FindPool` flags whose role bits are exactly Master and whose strategy bits
are the caller's. On success the selected index is an element of the Master
bucket; the liveness set, from which a Master|Slave request would be served, is
not read: replacing it by any other leaves the outcome unchanged. -/
theorem Begin_write_forces_master (checked : Bool) (c : ClusterImpl)
    (flags : ClusterHostTypeFlags)
    (h : (roleFlags flags).any = false ∨ (roleFlags flags &&& kMaster).any = true) :
    ∃ f, BeginFlags flags false = .ok f ∧
      Begin checked c flags false = FindPool checked c f ∧
      roleFlags f = kMaster ∧ strategyFlags f = strategyFlags flags ∧
      (∀ i rr', Begin checked c flags false = (.ok i, rr') → i ∈ bucket c kMaster) ∧
      (∀ alive, Begin checked
          ⟨⟨c.topology_.dsn_list, c.topology_.indices_by_type, alive⟩, c.host_pools_,
            c.rr_host_idx_⟩ flags false = Begin checked c flags false) := by
  have hsr : ∀ f : ClusterHostTypeFlags,
      roleFlags (kMaster ||| f.Clear kClusterHostRolesMask) = kMaster := by decide
  have hst : ∀ f : ClusterHostTypeFlags,
      strategyFlags (kMaster ||| f.Clear kClusterHostRolesMask) = strategyFlags f := by decide
  have hcond : ((roleFlags flags).any && !(roleFlags flags &&& kMaster).any) = false := by
    rcases h with h | h <;> simp [h]
  have hflags : BeginFlags flags false = .ok (kMaster ||| flags.Clear kClusterHostRolesMask) := by
    unfold roleFlags at hcond
    unfold BeginFlags
    simp [hcond]
  refine ⟨_, hflags, ?_, hsr flags, hst flags, ?_, ?_⟩
  · rw [Begin_eq, hflags]
  · intro i rr' hok
    rw [Begin_write_eq checked c flags h] at hok
    exact (selectIn_ok hok).1
  · intro alive
    rw [Begin_write_eq checked c flags h, Begin_write_eq checked _ flags h]
    rfl

/-- C11, an instance: a write-intent `Begin` with Master|Slave on the cluster
A, B, C with Master: [A]. -/
theorem Begin_write_forces_master_witness :
    ∃ f, BeginFlags (kMaster ||| kSlave ||| kRoundRobin) false = .ok f ∧
      Begin true (abcBDead 0) (kMaster ||| kSlave ||| kRoundRobin) false =
        FindPool true (abcBDead 0) f ∧
      roleFlags f = kMaster ∧
      strategyFlags f = strategyFlags (kMaster ||| kSlave ||| kRoundRobin) ∧
      (∀ i rr', Begin true (abcBDead 0) (kMaster ||| kSlave ||| kRoundRobin) false = (.ok i, rr') →
        i ∈ bucket (abcBDead 0) kMaster) ∧
      (∀ alive, Begin true
          ⟨⟨(abcBDead 0).topology_.dsn_list, (abcBDead 0).topology_.indices_by_type, alive⟩,
            (abcBDead 0).host_pools_, (abcBDead 0).rr_host_idx_⟩
          (kMaster ||| kSlave ||| kRoundRobin) false =
        Begin true (abcBDead 0) (kMaster ||| kSlave ||| kRoundRobin) false) :=
  Begin_write_forces_master true (abcBDead 0) (kMaster ||| kSlave ||| kRoundRobin)
    (Or.inr (by decide))

/-- C12: a read-only `Begin` passes to `FindPool` the caller's flags with the Slave
bit added when the caller gave no role bit, and the caller's flags unchanged
otherwise; the strategy bits are the caller's in both cases, and in the first
case the role bits passed are exactly Slave. -/
theorem Begin_read_only_flags (checked : Bool) (c : ClusterImpl)
    (flags : ClusterHostTypeFlags) :
    BeginFlags flags true =
        .ok (if (roleFlags flags).any = false then flags ||| kSlave else flags) ∧
      Begin checked c flags true =
        FindPool checked c (if (roleFlags flags).any = false then flags ||| kSlave else flags) ∧
      strategyFlags (if (roleFlags flags).any = false then flags ||| kSlave else flags) =
        strategyFlags flags ∧
      ((roleFlags flags).any = false → roleFlags (flags ||| kSlave) = kSlave) := by
  have hflags : BeginFlags flags true =
      .ok (if (roleFlags flags).any = false then flags ||| kSlave else flags) := by
    unfold BeginFlags roleFlags
    cases hany : (flags &&& kClusterHostRolesMask).any <;> simp [hany]
  have hst : ∀ f : ClusterHostTypeFlags, strategyFlags (f ||| kSlave) = strategyFlags f := by
    decide
  have hro : ∀ f : ClusterHostTypeFlags, (roleFlags f).any = false →
      roleFlags (f ||| kSlave) = kSlave := by decide
  refine ⟨hflags, ?_, ?_, hro flags⟩
  · rw [Begin_eq, hflags]
  · split_ifs
    · exact hst flags
    · rfl

/-- C12, an instance: a read-only `Begin` without role bits on the cluster A, B, C. -/
theorem Begin_read_only_flags_witness :
    BeginFlags kNearest true =
        .ok (if (roleFlags kNearest).any = false then kNearest ||| kSlave else kNearest) ∧
      Begin true (abcBDead 0) kNearest true =
        FindPool true (abcBDead 0)
          (if (roleFlags kNearest).any = false then kNearest ||| kSlave else kNearest) ∧
      strategyFlags (if (roleFlags kNearest).any = false then kNearest ||| kSlave else kNearest) =
        strategyFlags kNearest ∧
      ((roleFlags kNearest).any = false → roleFlags (kNearest ||| kSlave) = kSlave) :=
  Begin_read_only_flags true (abcBDead 0) kNearest

/-! ## C13: `Start` without a role -/

/-- The loop of `FindPool` fails only as `Fallback` fails. -/
theorem fallbackLoop_error {m : ClusterHostType → Option DsnIndices} {r : ClusterHostType}
    {n : Nat} {e : Failure} (h : fallbackLoop m r n = .error e) :
    e = .ClusterError ∨ e = .Undefined := by
  rw [fallbackLoop_eq] at h
  split_ifs at h
  unfold Fallback at h
  split_ifs at h <;> simp at h <;> simp [← h]

/-- The two ways `FindPool` can go: it fails before any selection, with the counter
unchanged, or it selects in a non-empty list, the liveness list or a role
bucket, and looks the pool up. -/
theorem FindPool_shape (checked : Bool) (c : ClusterImpl) (flags : ClusterHostTypeFlags) :
    (∃ e, (e = .AssertionFailed ∨ e = .ClusterUnavailable ∨ e = .ClusterError ∨
        e = .Undefined) ∧ FindPool checked c flags = (.error e, c.rr_host_idx_)) ∨
    (∃ b, b ≠ [] ∧ (b = c.topology_.alive_indices ∨ ∃ role, b = bucket c role) ∧
      FindPool checked c flags =
        lookupPool checked c (SelectDsnIndex checked b flags c.rr_host_idx_)) := by
  have hua : ∀ cond e, UASSERT checked cond = .error e → e = .AssertionFailed := by
    intro cond e h
    unfold UASSERT at h
    split_ifs at h
    injection h with h
    exact h.symm
  unfold FindPool
  simp only []
  split
  · rename_i e he
    exact Or.inl ⟨e, Or.inl (hua _ _ he), rfl⟩
  · split
    · rename_i e he
      exact Or.inl ⟨e, Or.inl (hua _ _ he), rfl⟩
    · split_ifs with h1 h2
      · exact Or.inl ⟨_, Or.inr (Or.inl rfl), rfl⟩
      · refine Or.inr ⟨c.topology_.alive_indices, ?_, Or.inl rfl, rfl⟩
        intro h
        simp [h] at h2
      · split
        · rename_i e he
          rcases fallbackLoop_error he with h | h
          · exact Or.inl ⟨e, Or.inr (Or.inr (Or.inl h)), rfl⟩
          · exact Or.inl ⟨e, Or.inr (Or.inr (Or.inr h)), rfl⟩
        · rename_i host_role steps he
          split_ifs with h3
          · exact Or.inl ⟨_, Or.inr (Or.inl rfl), rfl⟩
          · refine Or.inr ⟨bucket c host_role, ?_, Or.inr ⟨host_role, rfl⟩, rfl⟩
            intro h
            exact h3 ((noBucket_iff c host_role).mpr h)

/-- With at most one strategy bit `SelectDsnIndex` succeeds on a non-empty list. -/
theorem SelectDsnIndex_valid (checked : Bool) (b : DsnIndices) (flags : ClusterHostTypeFlags)
    (rr : Nat) (hb : b ≠ []) (hstrat : strategyFlags flags ≠ kClusterHostStrategyMask) :
    ∃ i rr', SelectDsnIndex checked b flags rr = (.ok i, rr') ∧ i ∈ b := by
  have hs : ∀ f : ClusterHostTypeFlags, strategyFlags f ≠ kClusterHostStrategyMask →
      (strategyFlags f).any = false ∨ strategyFlags f = kRoundRobin ∨
        strategyFlags f = kNearest := by decide
  have hsel : ∃ i rr', SelectDsnIndex checked b flags rr = (.ok i, rr') := by
    rw [SelectDsnIndex_eq checked b flags _ hb]
    rcases hs flags hstrat with h | h | h
    · rw [if_pos (Or.inl h)]
      split_ifs <;> exact ⟨_, _, rfl⟩
    · rw [if_pos (Or.inr h)]
      split_ifs <;> exact ⟨_, _, rfl⟩
    · rw [h, if_neg (by decide), if_neg (by decide)]
      exact ⟨_, _, rfl⟩
  obtain ⟨i, rr', hi⟩ := hsel
  exact ⟨i, rr', hi, SelectDsnIndex_mem hi⟩

/-- With at most one strategy bit `FindPool` does not fail with LogicError. -/
theorem FindPool_ne_logic (checked : Bool) (c : ClusterImpl) (flags : ClusterHostTypeFlags)
    (hstrat : strategyFlags flags ≠ kClusterHostStrategyMask) :
    (FindPool checked c flags).1 ≠ .error .LogicError := by
  rcases FindPool_shape checked c flags with ⟨e, he, h⟩ | ⟨b, hb, _, h⟩
  · rw [h]
    rcases he with he | he | he | he <;> simp [he]
  · obtain ⟨i, rr', hi, _⟩ := SelectDsnIndex_valid checked b flags c.rr_host_idx_ hb hstrat
    rw [h, hi]
    simp only [lookupPool, poolAt_eq]
    split_ifs <;> simp

/-- C13, the claim refuted: `Start` with the Master role and both strategy bits
fails with LogicError although a role bit is present. -/
theorem Start_logic_error_with_role :
    (roleFlags (kMaster ||| kRoundRobin ||| kNearest)).any = true ∧
      Start true (abcBDead 0) (kMaster ||| kRoundRobin ||| kNearest) =
        (.error .LogicError, 0) := by
  decide

/-- C13, as amended: without a role bit `Start` fails with LogicError for every
strategy and topology, applies no default role, selects no endpoint and leaves
the counter unchanged; with a role bit `Start` is `FindPool` on the unchanged
flags. Hence for flags with at most one strategy bit `Start` fails with
LogicError exactly when there is no role bit (with both strategy bits
`SelectDsnIndex` raises LogicError as well). -/
theorem Start_without_role (checked : Bool) (c : ClusterImpl) (flags : ClusterHostTypeFlags) :
    ((roleFlags flags).any = false →
      Start checked c flags = (.error .LogicError, c.rr_host_idx_)) ∧
    ((roleFlags flags).any = true → Start checked c flags = FindPool checked c flags) ∧
    (strategyFlags flags ≠ kClusterHostStrategyMask →
      ((Start checked c flags).1 = .error .LogicError ↔ (roleFlags flags).any = false)) := by
  have h1 : (roleFlags flags).any = false →
      Start checked c flags = (.error .LogicError, c.rr_host_idx_) := by
    intro h
    unfold roleFlags at h
    unfold Start
    simp [h]
  have h2 : (roleFlags flags).any = true → Start checked c flags = FindPool checked c flags := by
    intro h
    unfold roleFlags at h
    unfold Start
    simp [h]
  refine ⟨h1, h2, ?_⟩
  intro hstrat
  constructor
  · intro h
    by_contra hr
    have hr' : (roleFlags flags).any = true := by simpa using hr
    rw [h2 hr'] at h
    exact FindPool_ne_logic checked c flags hstrat h
  · intro h
    rw [h1 h]

/-- C13, an instance: `Start` with the Nearest strategy and no role on the cluster
A, B, C. -/
theorem Start_without_role_witness :
    ((roleFlags kNearest).any = false →
      Start true (abcBDead 0) kNearest = (.error .LogicError, (abcBDead 0).rr_host_idx_)) ∧
    ((roleFlags kNearest).any = true →
      Start true (abcBDead 0) kNearest = FindPool true (abcBDead 0) kNearest) ∧
    (strategyFlags kNearest ≠ kClusterHostStrategyMask →
      ((Start true (abcBDead 0) kNearest).1 = .error .LogicError ↔
        (roleFlags kNearest).any = false)) :=
  Start_without_role true (abcBDead 0) kNearest

/-! ## C14: requests that accept any node -/

/-- A request with the Master and the Slave bit is served from the liveness list,
provided the assertion on SyncSlave is not checked or holds. -/
theorem FindPool_anyNode (checked : Bool) (c : ClusterImpl) (flags : ClusterHostTypeFlags)
    (hm : (roleFlags flags &&& kMaster).any = true)
    (hs : (roleFlags flags &&& kSlave).any = true)
    (hss : checked = false ∨ (roleFlags flags &&& kSyncSlave).any = false) :
    FindPool checked c flags = selectIn checked c flags c.topology_.alive_indices := by
  have hany : ∀ f : ClusterHostTypeFlags, (roleFlags f &&& kMaster).any = true →
      (roleFlags f).any = true := by decide
  have h1 := hany flags hm
  unfold roleFlags at hm hs hss h1
  unfold FindPool selectIn UASSERT
  rcases hss with hss | hss
  · subst hss
    by_cases ha : c.topology_.alive_indices = [] <;> simp [hm, hs, ha, lookupPool]
  · by_cases ha : c.topology_.alive_indices = [] <;> simp [h1, hm, hs, hss, ha, lookupPool]

/-- C14, the claim refuted: in a build that checks assertions, the request
Master|SyncSlave|Slave has the Master and the Slave bit and a valid strategy, yet
with an empty liveness set it fails the assertion instead of failing with
ClusterUnavailable, and with liveness {A, C} it selects nothing. -/
theorem FindPool_any_node_with_sync_asserts :
    (roleFlags (kMaster ||| kSyncSlave ||| kSlave ||| kRoundRobin) &&& kMaster).any = true ∧
    (roleFlags (kMaster ||| kSyncSlave ||| kSlave ||| kRoundRobin) &&& kSlave).any = true ∧
    emptyCluster.topology_.alive_indices = [] ∧
    FindPool true emptyCluster (kMaster ||| kSyncSlave ||| kSlave ||| kRoundRobin) =
      (.error .AssertionFailed, 0) ∧
    FindPool true (abcBDead 0) (kMaster ||| kSyncSlave ||| kSlave ||| kRoundRobin) =
      (.error .AssertionFailed, 0) := by
  decide

/-- C14, as amended: for a request with the Master and the Slave role bit and at
most one strategy bit, whose role bits do not include SyncSlave or which is
made in a build that does not check assertions, `FindPool` is served from the
liveness list alone: replacing the role snapshot by any other leaves the outcome
unchanged, the failure is ClusterUnavailable exactly when the liveness list is
empty, and when it is not empty `SelectDsnIndex` selects an element of it, which
is the index `FindPool` returns when it succeeds. With liveness {A, C} and
RoundRobin the selection is A at an even counter and C at an odd one, so
consecutive selections alternate. -/
theorem any_node_routing (checked : Bool) (c : ClusterImpl) (flags : ClusterHostTypeFlags)
    (hm : (roleFlags flags &&& kMaster).any = true)
    (hs : (roleFlags flags &&& kSlave).any = true)
    (hss : checked = false ∨ (roleFlags flags &&& kSyncSlave).any = false)
    (hstrat : strategyFlags flags ≠ kClusterHostStrategyMask) :
    (∀ by_type, FindPool checked
        ⟨⟨c.topology_.dsn_list, by_type, c.topology_.alive_indices⟩, c.host_pools_,
          c.rr_host_idx_⟩ flags = FindPool checked c flags) ∧
    ((FindPool checked c flags).1 = .error .ClusterUnavailable ↔
      c.topology_.alive_indices = []) ∧
    (c.topology_.alive_indices ≠ [] →
      ∃ i rr', SelectDsnIndex checked c.topology_.alive_indices flags c.rr_host_idx_ =
          (.ok i, rr') ∧ i ∈ c.topology_.alive_indices ∧
        FindPool checked c flags = (poolAt checked c i, rr')) ∧
    (∀ i rr', FindPool checked c flags = (.ok i, rr') → i ∈ c.topology_.alive_indices) ∧
    (∀ rr, FindPool checked (abcBDead rr) (kMaster ||| kSlave ||| kRoundRobin) =
      (.ok (if rr % 2 = 0 then 0 else 2), (rr + 1) % 2 ^ 32)) := by
  have hf := FindPool_anyNode checked c flags hm hs hss
  refine ⟨?_, ?_, ?_, ?_, ?_⟩
  · intro by_type
    rw [hf, FindPool_anyNode checked _ flags hm hs hss]
    rfl
  · rw [hf]
    exact selectIn_unavailable_iff checked c flags _
  · intro ha
    obtain ⟨i, rr', hi, hmem⟩ :=
      SelectDsnIndex_valid checked _ flags c.rr_host_idx_ ha hstrat
    refine ⟨i, rr', hi, hmem, ?_⟩
    rw [hf]
    unfold selectIn
    rw [if_neg ha, hi]
    rfl
  · intro i rr' hok
    rw [hf] at hok
    exact (selectIn_ok hok).1
  · intro rr
    have h2 : rr % 2 = 0 ∨ rr % 2 = 1 := by omega
    rw [FindPool_anyNode checked _ _ (by decide) (by decide) (Or.inr (by decide))]
    unfold selectIn
    have ha : (abcBDead rr).topology_.alive_indices = [0, 2] := rfl
    rw [ha, if_neg (by decide), SelectDsnIndex_eq _ _ _ _ (by decide),
      if_pos (Or.inr (by decide))]
    rcases h2 with h2 | h2 <;> simp [h2, lookupPool, poolAt_eq, abcBDead]

/-- C14, an instance: Master|Slave with the Nearest strategy on the cluster A, B, C. -/
theorem any_node_routing_witness :
    (∀ by_type, FindPool true
        ⟨⟨(abcBDead 0).topology_.dsn_list, by_type, (abcBDead 0).topology_.alive_indices⟩,
          (abcBDead 0).host_pools_, (abcBDead 0).rr_host_idx_⟩
        (kMaster ||| kSlave ||| kNearest) =
      FindPool true (abcBDead 0) (kMaster ||| kSlave ||| kNearest)) ∧
    ((FindPool true (abcBDead 0) (kMaster ||| kSlave ||| kNearest)).1 =
        .error .ClusterUnavailable ↔ (abcBDead 0).topology_.alive_indices = []) ∧
    ((abcBDead 0).topology_.alive_indices ≠ [] →
      ∃ i rr', SelectDsnIndex true (abcBDead 0).topology_.alive_indices
          (kMaster ||| kSlave ||| kNearest) (abcBDead 0).rr_host_idx_ = (.ok i, rr') ∧
        i ∈ (abcBDead 0).topology_.alive_indices ∧
        FindPool true (abcBDead 0) (kMaster ||| kSlave ||| kNearest) =
          (poolAt true (abcBDead 0) i, rr')) ∧
    (∀ i rr', FindPool true (abcBDead 0) (kMaster ||| kSlave ||| kNearest) = (.ok i, rr') →
      i ∈ (abcBDead 0).topology_.alive_indices) ∧
    (∀ rr, FindPool true (abcBDead rr) (kMaster ||| kSlave ||| kRoundRobin) =
      (.ok (if rr % 2 = 0 then 0 else 2), (rr + 1) % 2 ^ 32)) :=
  any_node_routing true (abcBDead 0) (kMaster ||| kSlave ||| kNearest) (by decide) (by decide)
    (Or.inr (by decide)) (by decide)

/-! ## C15: the selected index is in range -/

/-- A valid request is served from its routed list. -/
theorem FindPool_valid (checked : Bool) (c : ClusterImpl) (flags : ClusterHostTypeFlags)
    (hv : ValidRequest flags) :
    FindPool checked c flags = selectIn checked c flags (routedBucket c flags) := by
  have hcases : ∀ f : ClusterHostTypeFlags, ValidRequest f →
      (SingleRole f ∧ ((roleFlags f &&& kMaster).any && (roleFlags f &&& kSlave).any) = false) ∨
      ((roleFlags f &&& kMaster).any = true ∧ (roleFlags f &&& kSlave).any = true ∧
        (roleFlags f &&& kSyncSlave).any = false) := by decide
  unfold routedBucket
  rcases hcases flags hv with ⟨h1, h2⟩ | ⟨h1, h2, h3⟩
  · rw [h2, FindPool_singleRole checked c flags h1]
    rfl
  · rw [h1, h2, FindPool_anyNode checked c flags h1 h2 (Or.inr h3)]
    rfl

/-- The indices of the routed list of a valid request are in range when the
buckets and the liveness list are. -/
theorem routedBucket_lt (c : ClusterImpl) (flags : ClusterHostTypeFlags)
    (hv : ValidRequest flags) (hb : BucketsInRange c) (ha : AliveInRange c) :
    ∀ i ∈ routedBucket c flags, i < c.topology_.dsn_list.length := by
  have hroles : ∀ f : ClusterHostTypeFlags, ValidRequest f →
      ((roleFlags f &&& kMaster).any && (roleFlags f &&& kSlave).any) = true ∨
      SingleRole f := by decide
  intro i hi
  unfold routedBucket at hi
  split_ifs at hi with h
  · exact ha i hi
  · rcases hroles flags hv with h' | h'
    · exact absurd h' h
    · unfold resolvedBucket at hi
      split_ifs at hi
      · exact hb.1 i hi
      · rcases h' with h' | h' | h' <;> rw [h'] at hi
        · exact hb.1 i hi
        · exact hb.2.1 i hi
        · exact hb.2.2 i hi

/-- C15: on a topology whose role-bucket and liveness indices are all below the
number `n` of endpoints, whenever `FindPool` succeeds on a valid request the
selected index is below `n` and is an element of the list `FindPool` resolved;
with one pool per endpoint the pool lookup therefore never fails: the request
either succeeds or fails with ClusterUnavailable, the counter unchanged. -/
theorem FindPool_in_range (checked : Bool) (c : ClusterImpl) (flags : ClusterHostTypeFlags)
    (hv : ValidRequest flags) (hb : BucketsInRange c) (ha : AliveInRange c) :
    (∀ i rr', FindPool checked c flags = (.ok i, rr') →
      i < c.topology_.dsn_list.length ∧ i ∈ routedBucket c flags) ∧
    (PoolPerEndpoint c →
      FindPool checked c flags = (.error .ClusterUnavailable, c.rr_host_idx_) ∨
      ∃ i rr', FindPool checked c flags = (.ok i, rr') ∧ i < c.host_pools_.length) := by
  have hf := FindPool_valid checked c flags hv
  have hlt := routedBucket_lt c flags hv hb ha
  constructor
  · intro i rr' hok
    rw [hf] at hok
    have hmem := (selectIn_ok hok).1
    exact ⟨hlt i hmem, hmem⟩
  · intro hp
    unfold PoolPerEndpoint at hp
    by_cases hemp : routedBucket c flags = []
    · left
      rw [hf, hemp]
      rfl
    · right
      have hstrat : strategyFlags flags ≠ kClusterHostStrategyMask := by
        rcases hv.2.2 with h | h <;> rw [h] <;> decide
      obtain ⟨i, rr', hi, hmem⟩ := selectIn_valid checked c flags _ hemp hstrat
        (fun i hi => by rw [hp]; exact hlt i hi)
      rw [hf]
      exact ⟨i, rr', hi, by rw [hp]; exact hlt i hmem⟩

/-- C15, an instance: a Slave request with round robin on the cluster A, B, C. -/
theorem FindPool_in_range_witness :
    (∀ i rr', FindPool true (abcBDead 0) (kSlave ||| kRoundRobin) = (.ok i, rr') →
      i < (abcBDead 0).topology_.dsn_list.length ∧
        i ∈ routedBucket (abcBDead 0) (kSlave ||| kRoundRobin)) ∧
    (PoolPerEndpoint (abcBDead 0) →
      FindPool true (abcBDead 0) (kSlave ||| kRoundRobin) =
          (.error .ClusterUnavailable, (abcBDead 0).rr_host_idx_) ∨
      ∃ i rr', FindPool true (abcBDead 0) (kSlave ||| kRoundRobin) = (.ok i, rr') ∧
        i < (abcBDead 0).host_pools_.length) :=
  FindPool_in_range true (abcBDead 0) (kSlave ||| kRoundRobin) (by decide) (by decide)
    (by decide)

/-! ## C16: more than one master -/

/-- C16, the claim refuted: with Master: [A, B] and the counter at 1, a Master
request with round robin selects B (index 1), not the first element A. -/
theorem FindPool_second_master_selected :
    (bucket (twoMasters 1) kMaster).head? = some 0 ∧
      FindPool true (twoMasters 1) (kMaster ||| kRoundRobin) = (.ok 1, 2) := by
  decide

/-- C16, as amended: let the Master bucket hold more than one index and let a
single-role request resolve to it (a Master request, or a SyncSlave or Slave
request whose own bucket is empty or absent). With the Nearest strategy the
first element of the Master bucket is selected and the counter is unchanged;
with RoundRobin or no strategy bit the element at position `counter mod size`
is selected, as in any other bucket, and the counter is incremented.
`GetStatistics` (one pool per endpoint, bucket indices in range) reports the
first element of the Master bucket as master. -/
theorem master_bucket_selection (checked : Bool) (c : ClusterImpl)
    (flags : ClusterHostTypeFlags) (hlen : 1 < (bucket c kMaster).length)
    (hsr : SingleRole flags)
    (hres : roleFlags flags = kMaster ∨
      noBucket (c.topology_.indices_by_type (roleFlags flags)) = true) :
    ∃ first rest, bucket c kMaster = first :: rest ∧
      (strategyFlags flags = kNearest →
        FindPool checked c flags = (poolAt checked c first, c.rr_host_idx_)) ∧
      ((strategyFlags flags).any = false ∨ strategyFlags flags = kRoundRobin →
        ∃ i, (bucket c kMaster)[c.rr_host_idx_ % (bucket c kMaster).length]? = some i ∧
          FindPool checked c flags = (poolAt checked c i, (c.rr_host_idx_ + 1) % 2 ^ 32)) ∧
      (PoolPerEndpoint c → BucketsInRange c →
        ∃ s, GetStatistics checked c = .ok s ∧ s.master = some first) := by
  have hres' : resolvedBucket c (roleFlags flags) = bucket c kMaster := by
    unfold resolvedBucket
    rcases hres with h | h
    · rw [h]
      simp
    · by_cases hm : roleFlags flags = kMaster
      · rw [hm]
        simp
      · rw [if_pos ⟨hm, (noBucket_iff c _).mp h⟩]
  have hf : FindPool checked c flags = selectIn checked c flags (bucket c kMaster) := by
    rw [FindPool_singleRole checked c flags hsr, hres']
  have hne : bucket c kMaster ≠ [] := by
    intro h
    rw [h] at hlen
    simp at hlen
  obtain ⟨first, rest, hb⟩ := List.exists_cons_of_ne_nil hne
  have hlen1 : (bucket c kMaster).length ≠ 1 := by omega
  have hpos : 0 < (bucket c kMaster).length := by omega
  refine ⟨first, rest, hb, ?_, ?_, ?_⟩
  · intro hst
    rw [hf]
    unfold selectIn
    rw [if_neg hne, SelectDsnIndex_eq checked _ flags _ hne, hst,
      if_neg (by decide), if_neg (by decide), hb]
    rfl
  · intro hst
    have hk : c.rr_host_idx_ % (bucket c kMaster).length < (bucket c kMaster).length :=
      Nat.mod_lt _ hpos
    refine ⟨(bucket c kMaster).getD (c.rr_host_idx_ % (bucket c kMaster).length) 0, ?_, ?_⟩
    · rw [List.getD_eq_getElem?_getD, List.getElem?_eq_getElem hk]
      rfl
    · rw [hf]
      unfold selectIn
      rw [if_neg hne, SelectDsnIndex_eq checked _ flags _ hne, if_pos hst, if_pos hlen1]
      rfl
  · intro hp hr
    obtain ⟨s, hs, hm, _⟩ := GetStatistics_ok checked c hp hr
    refine ⟨s, hs, ?_⟩
    rw [hm, hb]
    rfl

/-- C16, an instance: the cluster with Master: [A, B] and a Master request with the
Nearest strategy. -/
theorem master_bucket_selection_witness :
    ∃ first rest, bucket (twoMasters 1) kMaster = first :: rest ∧
      (strategyFlags (kMaster ||| kNearest) = kNearest →
        FindPool true (twoMasters 1) (kMaster ||| kNearest) =
          (poolAt true (twoMasters 1) first, (twoMasters 1).rr_host_idx_)) ∧
      ((strategyFlags (kMaster ||| kNearest)).any = false ∨
          strategyFlags (kMaster ||| kNearest) = kRoundRobin →
        ∃ i, (bucket (twoMasters 1) kMaster)[(twoMasters 1).rr_host_idx_ %
            (bucket (twoMasters 1) kMaster).length]? = some i ∧
          FindPool true (twoMasters 1) (kMaster ||| kNearest) =
            (poolAt true (twoMasters 1) i, ((twoMasters 1).rr_host_idx_ + 1) % 2 ^ 32)) ∧
      (PoolPerEndpoint (twoMasters 1) → BucketsInRange (twoMasters 1) →
        ∃ s, GetStatistics true (twoMasters 1) = .ok s ∧ s.master = some first) :=
  master_bucket_selection true (twoMasters 1) (kMaster ||| kNearest) (by decide) (by decide)
    (Or.inl (by decide))

/-! ## C17: `Fallback` -/

/-- The calls of `Fallback` made by the loop of `FindPool`, in closed form: one
call, on the starting role, when that role is not Master and has no bucket. -/
theorem fallbackCalls_eq (m : ClusterHostType → Option DsnIndices) (r : ClusterHostType) :
    fallbackCalls m r = if r ≠ kMaster ∧ noBucket (m r) = true then [r] else [] := by
  rw [fallbackCalls]
  split_ifs with h
  · split
    · rename_i fb hf
      have hfb := Fallback_ok hf
      subst hfb
      rw [fallbackCalls]
      simp
    · rfl
  · rfl

/-- C17: `Fallback` of Master fails with ClusterError, `Fallback` of SyncSlave and
of Slave is Master, and `Fallback` of None, RoundRobin or Nearest fails with
ClusterError. For a request with exactly one role bit the loop of `FindPool`
never calls `Fallback` on Master, calls it at most once, ends without an
exception after at most one fallback step, and `FindPool` does not fail with
ClusterError. -/
theorem Fallback_table_and_loop (checked : Bool) (c : ClusterImpl)
    (flags : ClusterHostTypeFlags) (h : SingleRole flags) :
    Fallback kMaster = .error .ClusterError ∧
    Fallback kSyncSlave = .ok kMaster ∧ Fallback kSlave = .ok kMaster ∧
    Fallback kNone = .error .ClusterError ∧ Fallback kRoundRobin = .error .ClusterError ∧
    Fallback kNearest = .error .ClusterError ∧
    kMaster ∉ fallbackCalls c.topology_.indices_by_type (roleFlags flags) ∧
    (fallbackCalls c.topology_.indices_by_type (roleFlags flags)).length ≤ 1 ∧
    (∃ host_role steps,
      fallbackLoop c.topology_.indices_by_type (roleFlags flags) 0 = .ok (host_role, steps) ∧
      steps = (fallbackCalls c.topology_.indices_by_type (roleFlags flags)).length ∧
      steps ≤ 1) ∧
    (FindPool checked c flags).1 ≠ .error .ClusterError := by
  refine ⟨by decide, by decide, by decide, by decide, by decide, by decide, ?_, ?_, ?_, ?_⟩
  · rw [fallbackCalls_eq]
    split_ifs with hg
    · intro hmem
      simp at hmem
      exact hg.1 hmem.symm
    · simp
  · rw [fallbackCalls_eq]
    split_ifs <;> simp
  · rw [fallbackCalls_eq, fallbackLoop_eq]
    rcases h with h | h | h <;> rw [h] <;> split_ifs with hg
    · exact absurd rfl hg.1
    · exact ⟨_, _, rfl, rfl, by omega⟩
    · exact ⟨kMaster, 1, by simp +decide [Fallback], rfl, by omega⟩
    · exact ⟨_, _, rfl, rfl, by omega⟩
    · exact ⟨kMaster, 1, by simp +decide [Fallback], rfl, by omega⟩
    · exact ⟨_, _, rfl, rfl, by omega⟩
  · rw [FindPool_singleRole checked c flags h]
    unfold selectIn
    split_ifs with hb
    · simp
    · rw [SelectDsnIndex_eq checked _ flags _ hb]
      split_ifs <;> simp only [lookupPool, poolAt_eq] <;>
        first
        | (split_ifs <;> simp)
        | simp

/-- C17, an instance: a SyncSlave request on the cluster A, B, C, which has no
SyncSlave bucket. -/
theorem Fallback_table_and_loop_witness :
    Fallback kMaster = .error .ClusterError ∧
    Fallback kSyncSlave = .ok kMaster ∧ Fallback kSlave = .ok kMaster ∧
    Fallback kNone = .error .ClusterError ∧ Fallback kRoundRobin = .error .ClusterError ∧
    Fallback kNearest = .error .ClusterError ∧
    kMaster ∉ fallbackCalls (abcBDead 0).topology_.indices_by_type (roleFlags kSyncSlave) ∧
    (fallbackCalls (abcBDead 0).topology_.indices_by_type (roleFlags kSyncSlave)).length ≤ 1 ∧
    (∃ host_role steps,
      fallbackLoop (abcBDead 0).topology_.indices_by_type (roleFlags kSyncSlave) 0 =
        .ok (host_role, steps) ∧
      steps =
        (fallbackCalls (abcBDead 0).topology_.indices_by_type (roleFlags kSyncSlave)).length ∧
      steps ≤ 1) ∧
    (FindPool true (abcBDead 0) kSyncSlave).1 ≠ .error .ClusterError :=
  Fallback_table_and_loop true (abcBDead 0) kSyncSlave (by decide)

/-! ## C18: the constructor -/

/-- The loop of the constructor appends one pool per DSN, in order. -/
theorem createPools_eq (dsn_list host_pools : List Dsn) :
    createPools dsn_list host_pools = host_pools ++ dsn_list := by
  induction dsn_list generalizing host_pools with
  | nil => simp [createPools]
  | cons d rest ih => simp [createPools, ih]

/-- C18, the claim refuted: construction from the empty DSN list fails with
ClusterError, the exception that `Fallback` throws for Master, and not with an
error of configuration. -/
theorem create_empty_is_ClusterError :
    ClusterImpl.create [] (fun _ => none) [] = (.error .ClusterError, []) ∧
      Fallback kMaster = .error .ClusterError :=
  ⟨rfl, by decide⟩

/-- C18, as amended: constructing a cluster from an empty DSN list fails with
ClusterError and creates no pools; constructing from a non-empty list of `n`
DSNs succeeds with exactly `n` pools, pool `i` being the pool created for DSN
`i`, the endpoint list of the topology being the list given, and the round-robin
counter 0. -/
theorem create_spec (dsns : List Dsn) (indices_by_type : ClusterHostType → Option DsnIndices)
    (alive_indices : DsnIndices) :
    (dsns = [] →
      ClusterImpl.create dsns indices_by_type alive_indices = (.error .ClusterError, [])) ∧
    (dsns ≠ [] →
      ∃ c, ClusterImpl.create dsns indices_by_type alive_indices = (.ok c, dsns) ∧
        c.host_pools_.length = dsns.length ∧
        (∀ i : Nat, c.host_pools_[i]? = dsns[i]?) ∧
        c.topology_.dsn_list = dsns ∧ PoolPerEndpoint c ∧ c.rr_host_idx_ = 0) := by
  constructor
  · intro h
    subst h
    rfl
  · intro h
    have hemp : dsns.isEmpty = false := by
      cases dsns with
      | nil => exact absurd rfl h
      | cons d rest => rfl
    refine ⟨⟨⟨dsns, indices_by_type, alive_indices⟩, dsns, 0⟩, ?_, rfl, fun _ => rfl, rfl,
      rfl, rfl⟩
    unfold ClusterImpl.create QuorumCommitTopology.create
    simp [hemp, createPools_eq]

/-- C18, an instance: construction from the DSNs A, B, C. -/
theorem create_spec_witness :
    ((["A", "B", "C"] : List Dsn) = [] →
      ClusterImpl.create ["A", "B", "C"] abcRoles [0, 2] = (.error .ClusterError, [])) ∧
    ((["A", "B", "C"] : List Dsn) ≠ [] →
      ∃ c, ClusterImpl.create ["A", "B", "C"] abcRoles [0, 2] = (.ok c, ["A", "B", "C"]) ∧
        c.host_pools_.length = (["A", "B", "C"] : List Dsn).length ∧
        (∀ i : Nat, c.host_pools_[i]? = (["A", "B", "C"] : List Dsn)[i]?) ∧
        c.topology_.dsn_list = ["A", "B", "C"] ∧ PoolPerEndpoint c ∧ c.rr_host_idx_ = 0) :=
  create_spec ["A", "B", "C"] abcRoles [0, 2]

/-! ## C20: selection within a bucket -/

/-- C20: selection in a non-empty bucket. With RoundRobin a bucket of size 1
returns its element and leaves the counter unchanged; a bucket of size `k > 1`
returns the element at position `c mod k`, `c` being the counter before the
call, and the counter becomes `(c + 1) mod 2^32`. With Nearest the first element
is returned and the counter is unchanged, so any number of Nearest selections
in a row return that same element. -/
theorem SelectDsnIndex_within_bucket (checked : Bool) (indices : DsnIndices) (rr : Nat)
    (flags : ClusterHostTypeFlags) (hne : indices ≠ []) :
    ∃ first rest, indices = first :: rest ∧
      (strategyFlags flags = kRoundRobin → indices.length = 1 →
        SelectDsnIndex checked indices flags rr = (.ok first, rr)) ∧
      (strategyFlags flags = kRoundRobin → 1 < indices.length →
        ∃ i, indices[rr % indices.length]? = some i ∧
          SelectDsnIndex checked indices flags rr = (.ok i, (rr + 1) % 2 ^ 32)) ∧
      (strategyFlags flags = kNearest →
        SelectDsnIndex checked indices flags rr = (.ok first, rr) ∧
        ∀ n, SelectDsnIndexN checked indices flags n rr = List.replicate n (.ok first)) := by
  obtain ⟨first, rest, hb⟩ := List.exists_cons_of_ne_nil hne
  have hpos : 0 < indices.length := List.length_pos.mpr hne
  have hfirst : indices.getD 0 0 = first := by
    rw [hb]
    rfl
  have hnear : strategyFlags flags = kNearest →
      SelectDsnIndex checked indices flags rr = (.ok first, rr) := by
    intro hst
    rw [SelectDsnIndex_eq checked _ flags _ hne, hst, if_neg (by decide), if_neg (by decide),
      hfirst]
  refine ⟨first, rest, hb, ?_, ?_, ?_⟩
  · intro hst hlen
    rw [SelectDsnIndex_eq checked _ flags _ hne, if_pos (Or.inr hst),
      if_neg (by simp [hlen]), hfirst]
  · intro hst hlen
    have hk : rr % indices.length < indices.length := Nat.mod_lt _ hpos
    refine ⟨indices.getD (rr % indices.length) 0, ?_, ?_⟩
    · rw [List.getD_eq_getElem?_getD, List.getElem?_eq_getElem hk]
      rfl
    · rw [SelectDsnIndex_eq checked _ flags _ hne, if_pos (Or.inr hst),
        if_pos (by omega)]
  · intro hst
    refine ⟨hnear hst, ?_⟩
    intro n
    induction n with
    | zero => rfl
    | succ n ih =>
      unfold SelectDsnIndexN
      rw [hnear hst]
      simp only [List.replicate_succ]
      rw [ih]

/-- C20, an instance: the bucket [B, C] at counter 5 with round robin. -/
theorem SelectDsnIndex_within_bucket_witness :
    ∃ first rest, ([1, 2] : DsnIndices) = first :: rest ∧
      (strategyFlags (kSlave ||| kRoundRobin) = kRoundRobin → ([1, 2] : DsnIndices).length = 1 →
        SelectDsnIndex true [1, 2] (kSlave ||| kRoundRobin) 5 = (.ok first, 5)) ∧
      (strategyFlags (kSlave ||| kRoundRobin) = kRoundRobin → 1 < ([1, 2] : DsnIndices).length →
        ∃ i, ([1, 2] : DsnIndices)[5 % ([1, 2] : DsnIndices).length]? = some i ∧
          SelectDsnIndex true [1, 2] (kSlave ||| kRoundRobin) 5 = (.ok i, (5 + 1) % 2 ^ 32)) ∧
      (strategyFlags (kSlave ||| kRoundRobin) = kNearest →
        SelectDsnIndex true [1, 2] (kSlave ||| kRoundRobin) 5 = (.ok first, 5) ∧
        ∀ n, SelectDsnIndexN true [1, 2] (kSlave ||| kRoundRobin) n 5 =
          List.replicate n (.ok first)) :=
  SelectDsnIndex_within_bucket true [1, 2] 5 (kSlave ||| kRoundRobin) (by decide)

/-! ## C22: failure atomicity -/

/-- `FindPool` is `SelectDsnIndex` and the pool lookup on the list that
`FindPoolSelects` computes, or the exception that `FindPoolSelects` throws. -/
theorem FindPool_eq_selects (checked : Bool) (c : ClusterImpl) (flags : ClusterHostTypeFlags) :
    FindPool checked c flags =
      match FindPoolSelects checked c flags with
      | .error e => (.error e, c.rr_host_idx_)
      | .ok b => lookupPool checked c (SelectDsnIndex checked b flags c.rr_host_idx_) := by
  unfold FindPool FindPoolSelects
  simp only []
  split
  · rfl
  · split
    · rfl
    · split_ifs
      · rfl
      · rfl
      · split
        · rfl
        · split_ifs <;> rfl

/-- The list that `FindPool` passes to `SelectDsnIndex` is not empty. -/
theorem FindPoolSelects_ne_nil {checked : Bool} {c : ClusterImpl}
    {flags : ClusterHostTypeFlags} {b : DsnIndices}
    (h : FindPoolSelects checked c flags = .ok b) : b ≠ [] := by
  unfold FindPoolSelects at h
  simp only [] at h
  split at h
  · cases h
  · split at h
    · cases h
    · split_ifs at h with h1 h2
      · injection h with h
        subst h
        intro hb
        simp [hb] at h2
      · split at h
        · cases h
        · rename_i host_role steps he
          split_ifs at h with h3
          injection h with h
          subst h
          intro hb
          exact h3 ((noBucket_iff c host_role).mpr hb)

/-- Failure atomicity of `FindPool`. -/
theorem FindPool_counterKept (checked : Bool) (c : ClusterImpl) (flags : ClusterHostTypeFlags) :
    CounterKept checked c (.ok flags) (FindPool checked c flags) := by
  unfold CounterKept
  rw [FindPool_eq_selects]
  cases hsel : FindPoolSelects checked c flags with
  | error e =>
    refine ⟨fun _ _ _ => rfl, fun hne => absurd rfl hne, ?_⟩
    intro f b hf hb
    injection hf with hf
    subst hf
    rw [hsel] at hb
    cases hb
  | ok b =>
    have hb : b ≠ [] := FindPoolSelects_ne_nil hsel
    have hpos : 0 < b.length := List.length_pos.mpr hb
    simp only []
    rw [SelectDsnIndex_eq checked b flags _ hb]
    by_cases hst : (strategyFlags flags).any = false ∨ strategyFlags flags = kRoundRobin
    · rw [if_pos hst]
      by_cases hlen : b.length ≠ 1
      · rw [if_pos hlen]
        have hl1 : 1 < b.length := by omega
        refine ⟨?_, ?_, ?_⟩
        · intro e he hkind
          simp only [lookupPool, poolAt_eq] at he
          split_ifs at he <;> simp at he <;> rcases hkind with hk | hk | hk <;>
            rw [hk] at he <;> cases he
        · intro _
          refine ⟨flags, b, b.getD (c.rr_host_idx_ % b.length) 0, rfl, hsel, hl1, hst, ?_, rfl⟩
          rw [SelectDsnIndex_eq checked b flags _ hb, if_pos hst, if_pos hlen]
          rfl
        · intro _ _ _ _ _ _
          rfl
      · rw [if_neg hlen]
        refine ⟨fun _ _ _ => rfl, fun hne => absurd rfl hne, ?_⟩
        intro f b' hf hb' hl _
        injection hf with hf
        subst hf
        rw [hsel] at hb'
        injection hb' with hb'
        subst hb'
        omega
    · rw [if_neg hst]
      have hkeep : ∀ r : Routed, r.2 = c.rr_host_idx_ →
          (∀ (f : ClusterHostTypeFlags) (b' : DsnIndices),
            (Except.ok flags : Except Failure ClusterHostTypeFlags) = .ok f →
            FindPoolSelects checked c f = .ok b' → 1 < b'.length →
            ((strategyFlags f).any = false ∨ strategyFlags f = kRoundRobin) →
            r.2 = (c.rr_host_idx_ + 1) % 2 ^ 32) := by
        intro r _ f b' hf _ _ hst'
        injection hf with hf
        subst hf
        exact absurd hst' hst
      split_ifs
      · exact ⟨fun _ _ _ => rfl, fun hne => absurd rfl hne, hkeep _ rfl⟩
      · exact ⟨fun _ _ _ => rfl, fun hne => absurd rfl hne, hkeep _ rfl⟩

/-- `Start` is `FindPool` on the flags that `StartFlags` lets through. -/
theorem Start_eq (checked : Bool) (c : ClusterImpl) (flags : ClusterHostTypeFlags) :
    Start checked c flags =
      match StartFlags flags with
      | .error e => (.error e, c.rr_host_idx_)
      | .ok f => FindPool checked c f := by
  unfold Start StartFlags
  split_ifs <;> rfl

/-- A call that throws before `FindPool`, the counter untouched, is atomic. -/
theorem counterKept_of_error (checked : Bool) (c : ClusterImpl) (e : Failure) :
    CounterKept checked c (.error e) (.error e, c.rr_host_idx_) :=
  ⟨fun _ _ _ => rfl, fun hne => absurd rfl hne, fun _ _ hf => by cases hf⟩

/-- The pool lookup is the one step that can fail after the counter has moved: on
the cluster `strayIndices` the round-robin selection returns index 5, which has
no pool, and `at` throws with the counter at 1. That failure is none of
ClusterUnavailable, LogicError and ClusterError. -/
theorem FindPool_lookup_fails_after_selection :
    FindPool false strayIndices (kSlave ||| kRoundRobin) = (.error .OutOfRange, 1) := by
  decide

/-- C22: for `FindPool`, `Begin` and `Start`, every request and every topology
state. `Begin` and `Start` are `FindPool` on the flags they pass, or the
exception they throw before with the counter untouched, and `FindPool` is
`SelectDsnIndex` with the pool lookup on the list it passes, or the exception it
throws before with the counter untouched. When the call fails with
ClusterUnavailable, LogicError or ClusterError the round-robin counter has the
same value after the call as before it. The counter has another value after the
call only when the `FindPool` of that call passed to `SelectDsnIndex` a list of
more than one index with flags whose strategy is RoundRobin or absent and the
selection succeeded; every such selection leaves the counter one higher modulo
2^32. -/
theorem failure_atomicity (checked : Bool) (c : ClusterImpl) (flags : ClusterHostTypeFlags)
    (read_only : Bool) :
    (Begin checked c flags read_only =
      match BeginFlags flags read_only with
      | .error e => (.error e, c.rr_host_idx_)
      | .ok f => FindPool checked c f) ∧
    (Start checked c flags =
      match StartFlags flags with
      | .error e => (.error e, c.rr_host_idx_)
      | .ok f => FindPool checked c f) ∧
    (∀ f, FindPool checked c f =
      match FindPoolSelects checked c f with
      | .error e => (.error e, c.rr_host_idx_)
      | .ok b => lookupPool checked c (SelectDsnIndex checked b f c.rr_host_idx_)) ∧
    CounterKept checked c (.ok flags) (FindPool checked c flags) ∧
    CounterKept checked c (BeginFlags flags read_only) (Begin checked c flags read_only) ∧
    CounterKept checked c (StartFlags flags) (Start checked c flags) := by
  refine ⟨Begin_eq checked c flags read_only, Start_eq checked c flags,
    fun f => FindPool_eq_selects checked c f, FindPool_counterKept checked c flags, ?_, ?_⟩
  · rw [Begin_eq]
    cases BeginFlags flags read_only with
    | error e => exact counterKept_of_error checked c e
    | ok f => exact FindPool_counterKept checked c f
  · rw [Start_eq]
    cases StartFlags flags with
    | error e => exact counterKept_of_error checked c e
    | ok f => exact FindPool_counterKept checked c f

/-! ## C23: the assertions on entry -/

/-- C23: for every flags value and transaction option. `Begin` and `Start` are
`FindPool` on the flags they pass, or the exception they throw instead; the
flags passed have a role bit, so that the assertion "No roles specified" holds.
`FindPool`, on any flags, is `SelectDsnIndex` with the pool lookup on the list
it passes, or the exception it throws instead; the list passed is not empty, so
that the assertion of `SelectDsnIndex` holds, neither that assertion nor the
ClusterError that follows it is the outcome of the selection, and what
`SelectDsnIndex` would do on an empty list has no part in the outcome of
`FindPool`: any function that agrees with it on non-empty lists gives the
same. -/
theorem entry_assertions_hold (checked : Bool) (c : ClusterImpl) (flags : ClusterHostTypeFlags)
    (read_only : Bool) :
    (Begin checked c flags read_only =
      match BeginFlags flags read_only with
      | .error e => (.error e, c.rr_host_idx_)
      | .ok f => FindPool checked c f) ∧
    (∀ f, BeginFlags flags read_only = .ok f →
      (f &&& kClusterHostRolesMask).any = true ∧
      UASSERT checked (f &&& kClusterHostRolesMask).any = .ok ()) ∧
    (Start checked c flags =
      match StartFlags flags with
      | .error e => (.error e, c.rr_host_idx_)
      | .ok f => FindPool checked c f) ∧
    (∀ f, StartFlags flags = .ok f →
      (f &&& kClusterHostRolesMask).any = true ∧
      UASSERT checked (f &&& kClusterHostRolesMask).any = .ok ()) ∧
    (∀ f, FindPool checked c f =
      match FindPoolSelects checked c f with
      | .error e => (.error e, c.rr_host_idx_)
      | .ok b => lookupPool checked c (SelectDsnIndex checked b f c.rr_host_idx_)) ∧
    (∀ f b, FindPoolSelects checked c f = .ok b →
      b ≠ [] ∧ UASSERT checked (!b.isEmpty) = .ok () ∧
      (SelectDsnIndex checked b f c.rr_host_idx_).1 ≠ .error .AssertionFailed ∧
      (SelectDsnIndex checked b f c.rr_host_idx_).1 ≠ .error .ClusterError) ∧
    (∀ (f : ClusterHostTypeFlags)
        (select : DsnIndices → ClusterHostTypeFlags → Nat → Routed),
      (∀ b fl rr, b ≠ [] → select b fl rr = SelectDsnIndex checked b fl rr) →
      FindPool checked c f =
        match FindPoolSelects checked c f with
        | .error e => (.error e, c.rr_host_idx_)
        | .ok b => lookupPool checked c (select b f c.rr_host_idx_)) := by
  have hbegin : ∀ (fl : ClusterHostTypeFlags) (ro : Bool) (f : ClusterHostTypeFlags),
      BeginFlags fl ro = .ok f → (f &&& kClusterHostRolesMask).any = true := by
    decide
  have hstart : ∀ (fl f : ClusterHostTypeFlags),
      StartFlags fl = .ok f → (f &&& kClusterHostRolesMask).any = true := by
    decide
  refine ⟨Begin_eq checked c flags read_only, ?_, Start_eq checked c flags, ?_,
    fun f => FindPool_eq_selects checked c f, ?_, ?_⟩
  · intro f hf
    have h := hbegin flags read_only f hf
    exact ⟨h, by simp [UASSERT, h]⟩
  · intro f hf
    have h := hstart flags f hf
    exact ⟨h, by simp [UASSERT, h]⟩
  · intro f b hb
    have hne : b ≠ [] := FindPoolSelects_ne_nil hb
    have hemp : b.isEmpty = false := by
      cases b with
      | nil => exact absurd rfl hne
      | cons x xs => rfl
    refine ⟨hne, by simp [UASSERT, hemp], ?_, ?_⟩
    · rw [SelectDsnIndex_eq checked b f _ hne]
      split_ifs <;> simp
    · rw [SelectDsnIndex_eq checked b f _ hne]
      split_ifs <;> simp
  · intro f select hsel
    rw [FindPool_eq_selects]
    cases hb : FindPoolSelects checked c f with
    | error e => rfl
    | ok b =>
      simp only []
      rw [hsel b f _ (FindPoolSelects_ne_nil hb)]

end Postgres

/-! ## C19: `AggregatedValues::Add` -/

namespace Statistics

namespace AggregatedValues

/-- The loop leaves `bucket` as it is for a key of 0 or 1. -/
theorem bucketLoop_small (key bucket : Nat) (h : key ≤ 1) : bucketLoop key bucket = bucket := by
  rw [bucketLoop]
  simp [Nat.not_lt.mpr h]

/-- One round of the loop for a key above 1. -/
theorem bucketLoop_step (key bucket : Nat) (h : 1 < key) :
    bucketLoop key bucket = bucketLoop (key / 2) (bucket + 1) := by
  rw [bucketLoop]
  simp [h, Nat.shiftRight_eq_div_pow]

/-- For `2^k ≤ key < 2^(k+1)` the loop adds `k`. -/
theorem bucketLoop_eq (k : Nat) : ∀ key bucket, 2 ^ k ≤ key → key < 2 ^ (k + 1) →
    bucketLoop key bucket = bucket + k := by
  induction k with
  | zero =>
    intro key bucket h1 h2
    rw [bucketLoop_small key bucket (by omega)]
    rfl
  | succ k ih =>
    intro key bucket h1 h2
    have hk : 1 ≤ 2 ^ k := Nat.one_le_two_pow
    rw [Nat.pow_succ] at h1 h2
    rw [bucketLoop_step key bucket (by omega), ih (key / 2) (bucket + 1) (by omega) (by omega)]
    omega

/-- For `2^k ≤ key` the loop adds at least `k`. -/
theorem bucketLoop_ge (k : Nat) : ∀ key bucket, 2 ^ k ≤ key → bucket + k ≤ bucketLoop key bucket := by
  induction k with
  | zero =>
    intro key bucket _
    by_cases h : key ≤ 1
    · rw [bucketLoop_small key bucket h]
      omega
    · have hlog : 2 ^ Nat.log2 key ≤ key := Nat.log2_self_le (by omega)
      have hlt : key < 2 ^ (Nat.log2 key + 1) := Nat.lt_log2_self
      rw [bucketLoop_eq _ key bucket hlog hlt]
      omega
  | succ k ih =>
    intro key bucket h1
    have hk : 1 ≤ 2 ^ k := Nat.one_le_two_pow
    rw [Nat.pow_succ] at h1
    rw [bucketLoop_step key bucket (by omega)]
    have := ih (key / 2) (bucket + 1) (by omega)
    omega

/-- A value in the range of `long long` is stored as it is. -/
theorem wrapLongLong_eq (x : Int) (h : IsLongLong x) : wrapLongLong x = x := by
  unfold IsLongLong at h
  unfold wrapLongLong
  omega

/-- Replacing the entry `v` at position `i` by `x` changes the sum by `x - v`. -/
theorem sum_set (l : List Int) : ∀ (i : Nat) (v x : Int), l[i]? = some v →
    (l.set i x).sum = l.sum - v + x := by
  induction l with
  | nil =>
    intro i v x h
    simp at h
  | cons a t ih =>
    intro i v x h
    cases i with
    | zero =>
      simp at h
      simp [h]
      omega
    | succ i =>
      simp at h
      simp [ih i v x h]
      omega

/-- C19, the claim refuted: with `delta = 0` no bucket changes, and with
`delta = 2^63` on a counter at 0 the counter wraps to `-2^63`, so that the sum of
the buckets does not grow by `delta`. -/
theorem Add_zero_and_wrap :
    Add ⟨[0, 0]⟩ 1 0 = some ⟨[0, 0]⟩ ∧
      Add ⟨[0, 0]⟩ 1 (2 ^ 63) = some ⟨[-(2 ^ 63), 0]⟩ ∧
      ([-(2 ^ 63), 0] : List Int).sum ≠ ([0, 0] : List Int).sum + 2 ^ 63 := by
  decide

/-- The bucket addressed for each kind of key, for `1 ≤ Length < 2^64`. -/
theorem targetBucket_spec (s : AggregatedValues) (key : Nat) (hL1 : 1 ≤ s.Length)
    (hL : s.Length < 2 ^ 64) :
    targetBucket s key < s.Length ∧
    (∀ k, 2 ^ k ≤ key → key < 2 ^ (k + 1) → k < s.Length → targetBucket s key = k) ∧
    (key ≤ 1 → targetBucket s key = 0) ∧
    (2 ^ s.Length ≤ key → targetBucket s key = s.Length - 1) := by
  have hlast : (s.Length + 2 ^ 64 - 1) % 2 ^ 64 = s.Length - 1 := by omega
  unfold targetBucket
  simp only [hlast]
  refine ⟨?_, ?_, ?_, ?_⟩
  · split_ifs with h <;> omega
  · intro k h1 h2 hk
    rw [bucketLoop_eq k key 0 h1 h2]
    simp only [Nat.zero_add]
    rw [if_neg (by omega)]
  · intro h
    rw [bucketLoop_small key 0 h, if_neg (by omega)]
  · intro h
    have := bucketLoop_ge s.Length key 0 h
    rw [if_pos (by omega)]

/-- C19, as amended: `Add(key, delta)` for `1 ≤ Length` (a `size_t`). The bucket
addressed is `k` for `2^k ≤ key < 2^(k+1)` with `k < Length`, 0 for a key of 0 or
1, and `Length - 1` for `key ≥ 2^Length`. The counter of that bucket, holding
`v`, is set to `v + delta` reduced modulo `2^64` into the range of `long long`;
no other bucket is changed (and the addressed one is not either when
`delta = 0`). When `v + delta` is in the range of `long long` the bucket holds
`v + delta` and the sum of all buckets grows by exactly `delta`. -/
theorem Add_spec (s : AggregatedValues) (key delta : Nat) (hL1 : 1 ≤ s.Length)
    (hL : s.Length < 2 ^ 64) :
    ∃ v s', s.value[targetBucket s key]? = some v ∧ Add s key delta = some s' ∧
      targetBucket s key < s.Length ∧
      (∀ k, 2 ^ k ≤ key → key < 2 ^ (k + 1) → k < s.Length → targetBucket s key = k) ∧
      (key ≤ 1 → targetBucket s key = 0) ∧
      (2 ^ s.Length ≤ key → targetBucket s key = s.Length - 1) ∧
      s'.Length = s.Length ∧
      (∀ j : Nat, j ≠ targetBucket s key → s'.value[j]? = s.value[j]?) ∧
      s'.value[targetBucket s key]? = some (wrapLongLong (v + delta)) ∧
      (IsLongLong (v + delta) →
        s'.value[targetBucket s key]? = some (v + delta) ∧
        s'.value.sum = s.value.sum + delta) := by
  obtain ⟨hlt, hk, h01, hbig⟩ := targetBucket_spec s key hL1 hL
  have hlt' : targetBucket s key < s.value.length := hlt
  have hv : s.value[targetBucket s key]? = some (s.value[targetBucket s key]) :=
    List.getElem?_eq_getElem hlt'
  refine ⟨s.value[targetBucket s key],
    ⟨s.value.set (targetBucket s key) (wrapLongLong (s.value[targetBucket s key] + delta))⟩,
    hv, ?_, hlt, hk, h01, hbig, ?_, ?_, ?_, ?_⟩
  · unfold Add
    simp only [hv]
  · simp [Length]
  · intro j hj
    simp only []
    rw [List.getElem?_set_ne (fun h => hj h.symm)]
  · simp only []
    rw [List.getElem?_set, if_pos rfl, if_pos hlt']
  · intro hrange
    simp only []
    rw [wrapLongLong_eq _ hrange, sum_set _ _ _ _ hv]
    constructor
    · rw [List.getElem?_set, if_pos rfl, if_pos hlt']
    · omega

/-- C19, an instance: `Add(5, 7)` on three buckets at 0; the key 5 lies between
`2^2` and `2^3`. -/
theorem Add_spec_witness :
    ∃ v s', (⟨[0, 0, 0]⟩ : AggregatedValues).value[targetBucket ⟨[0, 0, 0]⟩ 5]? = some v ∧
      Add ⟨[0, 0, 0]⟩ 5 7 = some s' ∧
      targetBucket ⟨[0, 0, 0]⟩ 5 < (⟨[0, 0, 0]⟩ : AggregatedValues).Length ∧
      (∀ k, 2 ^ k ≤ 5 → 5 < 2 ^ (k + 1) → k < (⟨[0, 0, 0]⟩ : AggregatedValues).Length →
        targetBucket ⟨[0, 0, 0]⟩ 5 = k) ∧
      (5 ≤ 1 → targetBucket ⟨[0, 0, 0]⟩ 5 = 0) ∧
      (2 ^ (⟨[0, 0, 0]⟩ : AggregatedValues).Length ≤ 5 →
        targetBucket ⟨[0, 0, 0]⟩ 5 = (⟨[0, 0, 0]⟩ : AggregatedValues).Length - 1) ∧
      s'.Length = (⟨[0, 0, 0]⟩ : AggregatedValues).Length ∧
      (∀ j : Nat, j ≠ targetBucket ⟨[0, 0, 0]⟩ 5 →
        s'.value[j]? = (⟨[0, 0, 0]⟩ : AggregatedValues).value[j]?) ∧
      s'.value[targetBucket ⟨[0, 0, 0]⟩ 5]? = some (wrapLongLong (v + (7 : Nat))) ∧
      (IsLongLong (v + (7 : Nat)) →
        s'.value[targetBucket ⟨[0, 0, 0]⟩ 5]? = some (v + (7 : Nat)) ∧
        s'.value.sum = (⟨[0, 0, 0]⟩ : AggregatedValues).value.sum + (7 : Nat)) :=
  Add_spec ⟨[0, 0, 0]⟩ 5 7 (by decide) (by decide)

end AggregatedValues


/-! ## C21: the key ranges of `AggregatedValuesToJson` -/

/-- The shift `1 << i` below 31. -/
theorem shiftLeftInt_lt (i : Nat) (h : i < 31) : shiftLeftInt i = some (2 ^ i) := by
  unfold shiftLeftInt
  rw [if_pos h]

/-- The loop of the overload with suffix writes, for each `i`, the label of the
property followed by the suffix, with the value of bucket `i`. -/
theorem toJsonLoop_eq (stats : AggregatedValues) (suffix : String) (length : Nat) :
    ∀ (l : List Nat) (result : JsonObject), (∀ i ∈ l, i < length ∧ i < 30 ∧ i < stats.Length) →
      toJsonLoop stats suffix length l result =
        some (result ++ l.map (fun i => (keyLabel length i ++ suffix, stats.value.getD i 0))) := by
  intro l
  induction l with
  | nil =>
    intro result _
    simp [toJsonLoop]
  | cons i rest ih =>
    intro result h
    obtain ⟨h1, h2, h3⟩ := h i (by simp)
    have hrest : ∀ j ∈ rest, j < length ∧ j < 30 ∧ j < stats.Length :=
      fun j hj => h j (by simp [hj])
    have hv : stats.value[i]? = some (stats.value.getD i 0) := by
      have h3' : i < stats.value.length := h3
      rw [List.getD_eq_getElem?_getD, List.getElem?_eq_getElem h3']
      rfl
    have hl : (if i ≠ 0 then shiftLeftInt i else some 0) = some (lowerEnd i) := by
      unfold lowerEnd
      by_cases hi : i = 0
      · simp [hi]
      · simp [hi, shiftLeftInt_lt i (by omega)]
    have hkey : (if i ≠ length - 1
        then toString (lowerEnd i) ++ "-" ++ toString ((2 : Int) ^ (i + 1) - 1) ++ suffix
        else toString (lowerEnd i) ++ "-x" ++ suffix) = keyLabel length i ++ suffix := by
      unfold keyLabel upperEnd
      by_cases hi : i < length - 1
      · rw [if_pos (by omega), if_pos hi]
      · rw [if_neg (by omega), if_neg hi]
    unfold toJsonLoop
    rw [hl, shiftLeftInt_lt (i + 1) (by omega), hv]
    simp only []
    rw [hkey, ih _ hrest]
    simp

/-- The loop of the overload without suffix writes the label of the property with
the value of bucket `i`. -/
theorem toJsonLoopPlain_eq (stats : AggregatedValues) (Length : Nat) :
    ∀ (l : List Nat) (result : JsonObject), (∀ i ∈ l, i < Length ∧ i < 30 ∧ i < stats.Length) →
      toJsonLoopPlain stats Length l result =
        some (result ++ l.map (fun i => (keyLabel Length i, stats.value.getD i 0))) := by
  intro l
  induction l with
  | nil =>
    intro result _
    simp [toJsonLoopPlain]
  | cons i rest ih =>
    intro result h
    obtain ⟨h1, h2, h3⟩ := h i (by simp)
    have hrest : ∀ j ∈ rest, j < Length ∧ j < 30 ∧ j < stats.Length :=
      fun j hj => h j (by simp [hj])
    have hv : stats.Get i = some (stats.value.getD i 0) := by
      have h3' : i < stats.value.length := h3
      unfold AggregatedValues.Get
      rw [List.getD_eq_getElem?_getD, List.getElem?_eq_getElem h3']
      rfl
    have hl : (if i ≠ 0 then shiftLeftInt i else some 0) = some (lowerEnd i) := by
      unfold lowerEnd
      by_cases hi : i = 0
      · simp [hi]
      · simp [hi, shiftLeftInt_lt i (by omega)]
    have hkey : (if i < Length - 1
        then toString (lowerEnd i) ++ "-" ++ toString ((2 : Int) ^ (i + 1) - 1)
        else toString (lowerEnd i) ++ "-x") = keyLabel Length i := rfl
    unfold toJsonLoopPlain
    rw [hl, shiftLeftInt_lt (i + 1) (by omega), hv]
    simp only []
    rw [hkey, ih _ hrest]
    simp

namespace AggregatedValues

/-- The keys that `Add` sends to a bucket `i` that is not the last. -/
theorem targetBucket_eq_iff (s : AggregatedValues) (key i : Nat) (hL : s.Length < 2 ^ 64)
    (hi : i < s.Length - 1) :
    targetBucket s key = i ↔ (lowerEnd i ≤ (key : Int) ∧ (key : Int) ≤ upperEnd i) := by
  obtain ⟨_, hk, h01, hbig⟩ := targetBucket_spec s key (by omega) hL
  have hbounds : (lowerEnd i ≤ (key : Int) ∧ (key : Int) ≤ upperEnd i) ↔
      ((i = 0 ∧ key ≤ 1) ∨ (i ≠ 0 ∧ 2 ^ i ≤ key ∧ key < 2 ^ (i + 1))) := by
    unfold lowerEnd upperEnd
    have hc1 : ((2 : Int) ^ i ≤ (key : Int)) ↔ 2 ^ i ≤ key := by exact_mod_cast Iff.rfl
    have hc2 : ((key : Int) ≤ (2 : Int) ^ (i + 1) - 1) ↔ key < 2 ^ (i + 1) := by
      rw [Int.le_sub_one_iff]
      exact_mod_cast Iff.rfl
    by_cases h0 : i = 0
    · subst h0
      simp
    · simp only [h0, if_false, hc1, hc2]
      simp [h0]
  rw [hbounds]
  constructor
  · intro ht
    by_cases hkey : key ≤ 1
    · have := h01 hkey
      left
      exact ⟨by omega, hkey⟩
    · have hlog : 2 ^ Nat.log2 key ≤ key := Nat.log2_self_le (by omega)
      have hlt : key < 2 ^ (Nat.log2 key + 1) := Nat.lt_log2_self
      by_cases hlen : Nat.log2 key < s.Length
      · have := hk _ hlog hlt hlen
        have hik : i = Nat.log2 key := by omega
        have hne : Nat.log2 key ≠ 0 := by
          intro h0
          rw [h0] at hlt
          simp at hlt
          omega
        right
        rw [hik]
        exact ⟨hne, hlog, hlt⟩
      · have hpow : 2 ^ s.Length ≤ 2 ^ Nat.log2 key :=
          Nat.pow_le_pow_right (by decide) (by omega)
        have := hbig (Nat.le_trans hpow hlog)
        omega
  · rintro (⟨h0, hkey⟩ | ⟨_, h1, h2⟩)
    · rw [h0]
      exact h01 hkey
    · exact hk i h1 h2 (by omega)

/-- The keys that `Add` sends to the last bucket. -/
theorem targetBucket_last_iff (s : AggregatedValues) (key : Nat) (hL1 : 1 ≤ s.Length)
    (hL : s.Length < 2 ^ 64) :
    targetBucket s key = s.Length - 1 ↔ lowerEnd (s.Length - 1) ≤ (key : Int) := by
  obtain ⟨hlt, hk, h01, hbig⟩ := targetBucket_spec s key hL1 hL
  have hbounds : lowerEnd (s.Length - 1) ≤ (key : Int) ↔
      (s.Length - 1 = 0 ∨ 2 ^ (s.Length - 1) ≤ key) := by
    unfold lowerEnd
    have hc1 : ((2 : Int) ^ (s.Length - 1) ≤ (key : Int)) ↔ 2 ^ (s.Length - 1) ≤ key := by
      exact_mod_cast Iff.rfl
    by_cases h0 : s.Length - 1 = 0
    · simp [h0]
    · simp only [h0, if_false, hc1]
      simp
  rw [hbounds]
  constructor
  · intro ht
    by_cases h0 : s.Length - 1 = 0
    · exact Or.inl h0
    · right
      by_cases hkey : key ≤ 1
      · have := h01 hkey
        omega
      · have hlog : 2 ^ Nat.log2 key ≤ key := Nat.log2_self_le (by omega)
        have hlt2 : key < 2 ^ (Nat.log2 key + 1) := Nat.lt_log2_self
        by_cases hlen : Nat.log2 key < s.Length
        · have := hk _ hlog hlt2 hlen
          have hik : s.Length - 1 = Nat.log2 key := by omega
          rw [hik]
          exact hlog
        · have hpow : 2 ^ (s.Length - 1) ≤ 2 ^ Nat.log2 key :=
            Nat.pow_le_pow_right (by decide) (by omega)
          exact Nat.le_trans hpow hlog
  · rintro (h0 | h1)
    · omega
    · by_cases hbig' : 2 ^ s.Length ≤ key
      · exact hbig hbig'
      · have h2 : key < 2 ^ (s.Length - 1 + 1) := by
          rw [Nat.sub_add_cancel hL1]
          omega
        exact hk _ h1 h2 (by omega)

/-- The keys for which `Add` itself writes to bucket `i`: `Add(key, delta)` is, for
every `delta`, the update of entry `i` alone by `delta` exactly when the bucket
computed from `key` is `i`. -/
theorem Add_writes_iff (s : AggregatedValues) (key i : Nat) (hL1 : 1 ≤ s.Length)
    (hL : s.Length < 2 ^ 64) (hi : i < s.Length) :
    (∀ delta : Nat, ∃ v, s.value[i]? = some v ∧
      Add s key delta = some ⟨s.value.set i (wrapLongLong (v + delta))⟩) ↔
    targetBucket s key = i := by
  have hilen : i < s.value.length := hi
  have htb : targetBucket s key < s.value.length := (targetBucket_spec s key hL1 hL).1
  constructor
  · intro h
    obtain ⟨v, hv, hadd⟩ := h 1
    by_contra hne
    have hv' : s.value[targetBucket s key]? = some (s.value[targetBucket s key]) :=
      List.getElem?_eq_getElem htb
    unfold Add at hadd
    simp only [hv'] at hadd
    injection hadd with hadd
    injection hadd with hadd
    have hentry := congrArg (fun l : List Int => l[i]?) hadd
    simp only [] at hentry
    rw [List.getElem?_set_ne hne, hv, List.getElem?_set, if_pos rfl, if_pos hilen] at hentry
    injection hentry with hentry
    unfold wrapLongLong at hentry
    omega
  · intro h delta
    subst h
    refine ⟨s.value[targetBucket s key], List.getElem?_eq_getElem htb, ?_⟩
    unfold Add
    simp only [List.getElem?_eq_getElem htb]

end AggregatedValues

/-- C21: for `1 ≤ Length < 31`. Both overloads of `AggregatedValuesToJson` return
the object with, for each bucket `i` in turn, the key `keyLabel Length i`
(followed by the suffix in the overload that takes one) and the value of the
bucket; with the empty suffix the two overloads return the same object. For a
bucket `i < Length - 1` the label is "l-r" with `l = 0` if `i = 0` else `2^i`
and `r = 2^(i+1) - 1`, and `Add(key, delta)` adds `delta` to bucket `i`, leaving
the others, exactly when `l ≤ key ≤ r`; the last bucket is labelled "l-x", and
`Add(key, delta)` adds `delta` to it exactly when `l ≤ key`. In every case `Add`
writes to the bucket that `targetBucket` computes from the key. -/
theorem AggregatedValuesToJson_agrees (stats : AggregatedValues) (suffix : String)
    (hL1 : 1 ≤ stats.Length) (hL : stats.Length < 31) :
    AggregatedValuesToJson stats suffix =
      some ((List.range stats.Length).map
        (fun i => (keyLabel stats.Length i ++ suffix, stats.value.getD i 0))) ∧
    AggregatedValuesToJsonPlain stats =
      some ((List.range stats.Length).map
        (fun i => (keyLabel stats.Length i, stats.value.getD i 0))) ∧
    AggregatedValuesToJson stats "" = AggregatedValuesToJsonPlain stats ∧
    (∀ i, i < stats.Length - 1 →
      keyLabel stats.Length i = toString (lowerEnd i) ++ "-" ++ toString (upperEnd i) ∧
      (∀ key : Nat, AggregatedValues.targetBucket stats key = i ↔
        (lowerEnd i ≤ (key : Int) ∧ (key : Int) ≤ upperEnd i)) ∧
      (∀ key : Nat,
        (∀ delta : Nat, ∃ v, stats.value[i]? = some v ∧
          AggregatedValues.Add stats key delta =
            some ⟨stats.value.set i (AggregatedValues.wrapLongLong (v + delta))⟩) ↔
        (lowerEnd i ≤ (key : Int) ∧ (key : Int) ≤ upperEnd i))) ∧
    (keyLabel stats.Length (stats.Length - 1) =
        toString (lowerEnd (stats.Length - 1)) ++ "-x" ∧
      (∀ key : Nat, AggregatedValues.targetBucket stats key = stats.Length - 1 ↔
        lowerEnd (stats.Length - 1) ≤ (key : Int)) ∧
      (∀ key : Nat,
        (∀ delta : Nat, ∃ v, stats.value[stats.Length - 1]? = some v ∧
          AggregatedValues.Add stats key delta =
            some ⟨stats.value.set (stats.Length - 1)
              (AggregatedValues.wrapLongLong (v + delta))⟩) ↔
        lowerEnd (stats.Length - 1) ≤ (key : Int))) ∧
    (∀ key delta : Nat, ∃ v,
      stats.value[AggregatedValues.targetBucket stats key]? = some v ∧
      AggregatedValues.Add stats key delta =
        some ⟨stats.value.set (AggregatedValues.targetBucket stats key)
          (AggregatedValues.wrapLongLong (v + delta))⟩) := by
  have hsize : stats.Length < 2 ^ 64 := by omega
  have hrange : ∀ i ∈ List.range stats.Length,
      i < stats.Length ∧ i < 30 ∧ i < stats.Length := by
    intro i hi
    rw [List.mem_range] at hi
    omega
  have h1 : AggregatedValuesToJson stats suffix =
      some ((List.range stats.Length).map
        (fun i => (keyLabel stats.Length i ++ suffix, stats.value.getD i 0))) := by
    unfold AggregatedValuesToJson
    rw [toJsonLoop_eq stats suffix stats.Length _ [] hrange]
    rfl
  have h2 : AggregatedValuesToJsonPlain stats =
      some ((List.range stats.Length).map
        (fun i => (keyLabel stats.Length i, stats.value.getD i 0))) := by
    unfold AggregatedValuesToJsonPlain
    rw [toJsonLoopPlain_eq stats stats.Length _ [] hrange]
    rfl
  refine ⟨h1, h2, ?_, ?_, ?_, ?_⟩
  · unfold AggregatedValuesToJson
    rw [toJsonLoop_eq stats "" stats.Length _ [] hrange, h2]
    simp
  · intro i hi
    refine ⟨?_, fun key => AggregatedValues.targetBucket_eq_iff stats key i hsize hi,
      fun key => (AggregatedValues.Add_writes_iff stats key i hL1 hsize (by omega)).trans
        (AggregatedValues.targetBucket_eq_iff stats key i hsize hi)⟩
    unfold keyLabel
    rw [if_pos hi]
  · refine ⟨?_, fun key => AggregatedValues.targetBucket_last_iff stats key hL1 hsize,
      fun key => (AggregatedValues.Add_writes_iff stats key (stats.Length - 1) hL1 hsize
        (by omega)).trans (AggregatedValues.targetBucket_last_iff stats key hL1 hsize)⟩
    unfold keyLabel
    rw [if_neg (by omega)]
  · intro key delta
    exact (AggregatedValues.Add_writes_iff stats key _ hL1 hsize
      (AggregatedValues.targetBucket_spec stats key hL1 hsize).1).mpr rfl delta

/-- C21, an instance: three buckets holding 5, 6, 7 and the suffix ".ms". -/
theorem AggregatedValuesToJson_agrees_witness :
    AggregatedValuesToJson ⟨[5, 6, 7]⟩ ".ms" =
      some ((List.range (⟨[5, 6, 7]⟩ : AggregatedValues).Length).map
        (fun i => (keyLabel (⟨[5, 6, 7]⟩ : AggregatedValues).Length i ++ ".ms",
          (⟨[5, 6, 7]⟩ : AggregatedValues).value.getD i 0))) ∧
    AggregatedValuesToJsonPlain ⟨[5, 6, 7]⟩ =
      some ((List.range (⟨[5, 6, 7]⟩ : AggregatedValues).Length).map
        (fun i => (keyLabel (⟨[5, 6, 7]⟩ : AggregatedValues).Length i,
          (⟨[5, 6, 7]⟩ : AggregatedValues).value.getD i 0))) ∧
    AggregatedValuesToJson ⟨[5, 6, 7]⟩ "" = AggregatedValuesToJsonPlain ⟨[5, 6, 7]⟩ ∧
    (∀ i, i < (⟨[5, 6, 7]⟩ : AggregatedValues).Length - 1 →
      keyLabel (⟨[5, 6, 7]⟩ : AggregatedValues).Length i =
        toString (lowerEnd i) ++ "-" ++ toString (upperEnd i) ∧
      (∀ key : Nat, AggregatedValues.targetBucket ⟨[5, 6, 7]⟩ key = i ↔
        (lowerEnd i ≤ (key : Int) ∧ (key : Int) ≤ upperEnd i)) ∧
      (∀ key : Nat,
        (∀ delta : Nat, ∃ v, (⟨[5, 6, 7]⟩ : AggregatedValues).value[i]? = some v ∧
          AggregatedValues.Add ⟨[5, 6, 7]⟩ key delta =
            some ⟨(⟨[5, 6, 7]⟩ : AggregatedValues).value.set i
              (AggregatedValues.wrapLongLong (v + delta))⟩) ↔
        (lowerEnd i ≤ (key : Int) ∧ (key : Int) ≤ upperEnd i))) ∧
    (keyLabel (⟨[5, 6, 7]⟩ : AggregatedValues).Length
        ((⟨[5, 6, 7]⟩ : AggregatedValues).Length - 1) =
        toString (lowerEnd ((⟨[5, 6, 7]⟩ : AggregatedValues).Length - 1)) ++ "-x" ∧
      (∀ key : Nat, AggregatedValues.targetBucket ⟨[5, 6, 7]⟩ key =
          (⟨[5, 6, 7]⟩ : AggregatedValues).Length - 1 ↔
        lowerEnd ((⟨[5, 6, 7]⟩ : AggregatedValues).Length - 1) ≤ (key : Int)) ∧
      (∀ key : Nat,
        (∀ delta : Nat, ∃ v,
          (⟨[5, 6, 7]⟩ : AggregatedValues).value[(⟨[5, 6, 7]⟩ : AggregatedValues).Length - 1]? =
            some v ∧
          AggregatedValues.Add ⟨[5, 6, 7]⟩ key delta =
            some ⟨(⟨[5, 6, 7]⟩ : AggregatedValues).value.set
              ((⟨[5, 6, 7]⟩ : AggregatedValues).Length - 1)
              (AggregatedValues.wrapLongLong (v + delta))⟩) ↔
        lowerEnd ((⟨[5, 6, 7]⟩ : AggregatedValues).Length - 1) ≤ (key : Int))) ∧
    (∀ key delta : Nat, ∃ v,
      (⟨[5, 6, 7]⟩ : AggregatedValues).value[AggregatedValues.targetBucket ⟨[5, 6, 7]⟩ key]? =
        some v ∧
      AggregatedValues.Add ⟨[5, 6, 7]⟩ key delta =
        some ⟨(⟨[5, 6, 7]⟩ : AggregatedValues).value.set
          (AggregatedValues.targetBucket ⟨[5, 6, 7]⟩ key)
          (AggregatedValues.wrapLongLong (v + delta))⟩) :=
  AggregatedValuesToJson_agrees ⟨[5, 6, 7]⟩ ".ms" (by decide) (by decide)

end Statistics
